import Mathlib

/-
  Verification of the plex-watchlist-sync repository.

  Shallow embedding of the two availability-checker implementations found in
  utils/plexChecker.js (an optimized GUID-index version, suffix `A`, and an
  M1/M2/M3 scanning version, suffix `B`) and of the scan-cycle state logic of
  index.js.  Remote collaborators (the Plex HTTP API, Tautulli, the RSS feed)
  are modelled as environment records of pure functions; paginated enumeration
  of a library section is collapsed into a single enumeration call of the
  library collaborator, which is what the per-cycle scan cache memoizes.
-/

set_option autoImplicit false

namespace PlexWatchlist

/-! ## JavaScript string/truthiness primitives -/

/-- JavaScript truthiness of a nullable string: `null`/`undefined` and the
empty string are falsy, every other string is truthy. -/
def strTruthy : Option String → Bool
  | none => false
  | some s => !(s == "")

/-- JavaScript truthiness of a plain (non-nullable) string. -/
def strNonEmpty (s : String) : Bool := !(s == "")

/-- JavaScript truthiness of a nullable year: `null` and `0` (and `NaN`,
modelled as absence) are falsy. -/
def natTruthy : Option Nat → Bool
  | none => false
  | some n => !(n == 0)

/-- JavaScript `s.startsWith(pre)`. -/
def jsStartsWith (s pre : String) : Bool := pre.data.isPrefixOf s.data

/-- JavaScript `s.endsWith(suf)`. -/
def jsEndsWith (s suf : String) : Bool := suf.data.isSuffixOf s.data

/-- Does `pat` occur as a contiguous run somewhere in the list? -/
def occursIn (pat : List Char) : List Char → Bool
  | [] => pat.isEmpty
  | c :: rest => pat.isPrefixOf (c :: rest) || occursIn pat rest

/-- JavaScript `s.includes(sub)`. -/
def jsIncludes (s sub : String) : Bool := occursIn sub.data s.data

/-- Removes the first occurrence of `pat` from the character list, leaving
the input unchanged when `pat` does not occur. -/
def removeFirstAux (pat : List Char) : List Char → List Char
  | [] => []
  | c :: rest =>
    if pat.isPrefixOf (c :: rest) then List.drop pat.length (c :: rest)
    else c :: removeFirstAux pat rest

/-- JavaScript `s.replace(pat, "")` for a plain-string pattern: only the
first occurrence of `pat` is removed. -/
def jsReplaceDel (s pat : String) : String := ⟨removeFirstAux pat.data s.data⟩

/-- Whitespace characters matched by the regular expression class `\s`
(restricted to the ASCII whitespace that can occur in media titles). -/
def isJsWs (c : Char) : Bool := c == ' ' || c == '\t' || c == '\n' || c == '\r'

/-- Combining diacritical marks U+0300 to U+036F, removed by
`.replace(/[̀-ͯ]/g, "")` after NFD normalization. -/
def isCombiningMark (c : Char) : Bool :=
  decide (0x300 ≤ c.toNat) && decide (c.toNat ≤ 0x36F)

/-- One pass of `.replace(/\s+/g, ' ')`: every run of whitespace becomes a
single space.  The boolean records whether the previous character was
whitespace. -/
def collapseWsAux : Bool → List Char → List Char
  | _, [] => []
  | prevWs, c :: rest =>
    if isJsWs c then
      if prevWs then collapseWsAux true rest
      else ' ' :: collapseWsAux true rest
    else c :: collapseWsAux false rest

/-- JavaScript `s.trim()` on a character list. -/
def jsTrimChars (l : List Char) : List Char :=
  ((l.dropWhile isJsWs).reverse.dropWhile isJsWs).reverse

/-! ## Implementation A (GUID-index checker): normalizer -/

/-- Characters collapsed to a space by implementation A's normalizer
(the regular expression class `[:\-–—_]`). -/
def isSepCharA (c : Char) : Bool :=
  c == ':' || c == '-' || c == '–' || c == '—' || c == '_'

/-- Implementation A's `normalize`: lowercase, strip diacritics, turn
punctuation separators into spaces, collapse whitespace, trim.  Unicode NFD
decomposition is not modelled (it is the identity on the ASCII titles
considered here); the removal of combining marks is kept. -/
def normalizeA (s : String) : String :=
  if s == "" then "" else
  let cs := s.data.map Char.toLower
  let cs := cs.filter (fun c => !isCombiningMark c)
  let cs := cs.map (fun c => if isSepCharA c then ' ' else c)
  ⟨jsTrimChars (collapseWsAux false cs)⟩

/-- JavaScript `s.split(' ')[0]`: the longest space-free leading segment. -/
def jsFirstWord (s : String) : String := ⟨s.data.takeWhile (fun c => !(c == ' '))⟩

/-- The strict title predicate of implementation A's Tautulli tier: exact
normalized equality, or one title equals the first word of the other and has
at least 8 characters. -/
def tautulliTitleMatchA (searchTitle resultTitle : String) : Bool :=
  let normSearch := normalizeA searchTitle
  let normResult := normalizeA resultTitle
  normSearch == normResult
    || (normSearch == jsFirstWord normResult && decide (8 ≤ normSearch.data.length))
    || (normResult == jsFirstWord normSearch && decide (8 ≤ normResult.data.length))

/-- The year predicate of implementation A's Tautulli tier: both years must
be present and differ by at most 1. -/
def tautulliYearMatchA (year ry : Option Nat) : Bool :=
  natTruthy year && natTruthy ry
    && decide (((ry.getD 0 : Int) - (year.getD 0 : Int)).natAbs ≤ 1)

/-- The title predicate of implementation A's Plex title-search tier: exact
normalized equality or substring containment in either direction. -/
def searchTitleMatchA (title itemTitle : String) : Bool :=
  let normTitle := normalizeA title
  let normPlex := normalizeA itemTitle
  normTitle == normPlex || jsIncludes normTitle normPlex || jsIncludes normPlex normTitle

/-- The year predicate of implementation A's Plex title-search tier: true
when either year is absent, or the years differ by at most 1. -/
def searchYearMatchA (year iy : Option Nat) : Bool :=
  !natTruthy year || !natTruthy iy
    || decide (((year.getD 0 : Int) - (iy.getD 0 : Int)).natAbs ≤ 1)

/-! ## Implementation A: GUID index -/

/-- A library item as returned by a section enumeration, with its raw Guid
tags (strings such as "imdb://tt1375666"). -/
structure PlexItemA where
  title : String
  year : Option Nat
  ratingKey : String
  guids : List String
deriving DecidableEq

/-- A library section together with the items its (paginated) enumeration
returns; pagination is collapsed into the `items` list. -/
structure LibSectionA where
  id : String
  type : String
  title : String
  items : List PlexItemA
deriving DecidableEq

/-- The value stored in the GUID index for one external identifier. -/
structure IndexEntryA where
  title : String
  year : Option Nat
  ratingKey : String
  type : String
  sectionId : String
deriving DecidableEq

/-- The GUID index: one map per provider.  JavaScript `Map`s are modelled as
association lists where `set` prepends and `get` takes the first (most
recent) binding. -/
structure GuidIndexA where
  imdb : List (String × IndexEntryA)
  tmdb : List (String × IndexEntryA)
  tvdb : List (String × IndexEntryA)
  loaded : Bool
  itemCount : Nat
deriving DecidableEq

/-- `getLibrarySections` of implementation A: keep only movie/show sections
whose title is not excluded. -/
def getLibrarySectionsA (allSections : List LibSectionA) (excludeLibraries : List String) :
    List LibSectionA :=
  (allSections.filter (fun s => s.type == "movie" || s.type == "show")).filter
    (fun s => !(excludeLibraries.contains s.title))

/-- The index entry recorded for an item of a section. -/
def guidEntryFor (sec : LibSectionA) (item : PlexItemA) : IndexEntryA :=
  { title := item.title, year := item.year, ratingKey := item.ratingKey,
    type := sec.type, sectionId := sec.id }

/-- Indexing of one raw Guid tag, exactly as `buildGuidIndex` does it:
the provider scheme is stripped with JavaScript `replace` (first occurrence
only) and the remainder is used as the map key. -/
def indexOneGuid (entry : IndexEntryA) (idx : GuidIndexA) (g : String) : GuidIndexA :=
  if jsStartsWith g "imdb://" then
    { idx with imdb := (jsReplaceDel g "imdb://", entry) :: idx.imdb }
  else if jsStartsWith g "tmdb://" then
    { idx with tmdb := (jsReplaceDel g "tmdb://", entry) :: idx.tmdb }
  else if jsStartsWith g "tvdb://" || jsStartsWith g "thetvdb://" then
    let tvdbId := jsReplaceDel (jsReplaceDel g "tvdb://") "thetvdb://"
    { idx with tvdb := (tvdbId, entry) :: idx.tvdb }
  else idx

/-- Indexing of one library item: every Guid tag is recorded, then the item
counter is bumped. -/
def indexItemA (sec : LibSectionA) (idx : GuidIndexA) (item : PlexItemA) : GuidIndexA :=
  let idx := item.guids.foldl (indexOneGuid (guidEntryFor sec item)) idx
  { idx with itemCount := idx.itemCount + 1 }

/-- Indexing of one whole section. -/
def indexSectionA (idx : GuidIndexA) (sec : LibSectionA) : GuidIndexA :=
  sec.items.foldl (indexItemA sec) idx

/-- `buildGuidIndex`: enumerate every section, record every external
identifier of every item, then mark the index loaded. -/
def buildGuidIndex (sections : List LibSectionA) : GuidIndexA :=
  let idx : GuidIndexA :=
    { imdb := [], tmdb := [], tvdb := [], loaded := false, itemCount := 0 }
  let idx := sections.foldl indexSectionA idx
  { idx with loaded := true }

/-- JavaScript `Map.get`, on the association-list model. -/
def mapGetA (m : List (String × IndexEntryA)) (k : String) : Option IndexEntryA :=
  List.lookup k m

/-- `lookupByGuid`: provider-directed lookup with an IMDb fallback for ids
shaped like `tt…`. -/
def lookupByGuid (idx : GuidIndexA) (provider id : Option String) : Option IndexEntryA :=
  if !strTruthy id || !idx.loaded then none
  else
    let i := id.getD ""
    let entry : Option IndexEntryA :=
      if provider == some "imdb" || jsStartsWith i "tt" then mapGetA idx.imdb i
      else if provider == some "tmdb" then mapGetA idx.tmdb i
      else if provider == some "tvdb" then mapGetA idx.tvdb i
      else none
    match entry with
    | some e => some e
    | none => if jsStartsWith i "tt" then mapGetA idx.imdb i else none

/-! ## Implementation A: tiered checker -/

/-- A row of a Tautulli `get_library_media_info` response. -/
structure TautulliRowA where
  title : String
  year : Option Nat
  rating_key : String
deriving DecidableEq

/-- The result shape of implementation A's checker. -/
structure CheckResultA where
  found : Bool
  plexTitle : Option String
  detectedType : Option String
deriving DecidableEq

/-- The remote collaborators of implementation A: the raw section listing,
Tautulli search (section id and search string to rows) and Plex title search
(query and numeric type to items). -/
structure EnvA where
  rawSections : List LibSectionA
  tautulliRows : String → String → List TautulliRowA
  searchResults : String → String → List PlexItemA

/-- Static configuration relevant to implementation A. -/
structure ConfigA where
  excludeLibraries : List String
  tautulliConfigured : Bool

/-- The id-search loop of `checkViaTautulli`: a row is accepted when the
GUID index resolves the id to an entry with the same rating key. -/
def tautulliIdLoopA (idx : GuidIndexA) (provider id : Option String) :
    List TautulliRowA → Option CheckResultA
  | [] => none
  | r :: rest =>
    match lookupByGuid idx provider id with
    | some indexed =>
      if indexed.ratingKey == r.rating_key then
        some { found := true, plexTitle := some indexed.title,
               detectedType := some indexed.type }
      else tautulliIdLoopA idx provider id rest
    | none => tautulliIdLoopA idx provider id rest

/-- The title-search loop of `checkViaTautulli`: strict title match and
strict (both years required) year match. -/
def tautulliTitleLoopA (secType title : String) (year : Option Nat) :
    List TautulliRowA → Option CheckResultA
  | [] => none
  | r :: rest =>
    if tautulliTitleMatchA title r.title && tautulliYearMatchA year r.year then
      some { found := true, plexTitle := some r.title, detectedType := some secType }
    else tautulliTitleLoopA secType title year rest

/-- One section of `checkViaTautulli`; the second component counts Tautulli
HTTP requests issued. -/
def tautulliSectionA (env : EnvA) (idx : GuidIndexA) (title : String)
    (year : Option Nat) (provider id : Option String) (sec : LibSectionA) :
    Option CheckResultA × Nat :=
  let idStep : Option CheckResultA × Nat :=
    if strTruthy id then
      (tautulliIdLoopA idx provider id (env.tautulliRows sec.id (id.getD "")), 1)
    else (none, 0)
  match idStep with
  | (some r, n) => (some r, n)
  | (none, n) =>
    if strNonEmpty title then
      (tautulliTitleLoopA sec.type title year (env.tautulliRows sec.id title), n + 1)
    else (none, n)

/-- The section loop of `checkViaTautulli`. -/
def tautulliSectionsLoopA (env : EnvA) (idx : GuidIndexA) (title : String)
    (year : Option Nat) (provider id : Option String) :
    List LibSectionA → Option CheckResultA × Nat
  | [] => (none, 0)
  | sec :: rest =>
    match tautulliSectionA env idx title year provider id sec with
    | (some r, n) => (some r, n)
    | (none, n) =>
      let (r2, n2) := tautulliSectionsLoopA env idx title year provider id rest
      (r2, n + n2)

/-- `checkViaTautulli` of implementation A. -/
def checkViaTautulliA (env : EnvA) (cfg : ConfigA) (idx : GuidIndexA)
    (title : String) (year : Option Nat) (provider id : Option String) :
    Option CheckResultA × Nat :=
  if !cfg.tautulliConfigured then (none, 0)
  else
    tautulliSectionsLoopA env idx title year provider id
      (getLibrarySectionsA env.rawSections cfg.excludeLibraries)

/-- The candidate loop of `searchByTitle`: lax title containment plus lax
year tolerance; the detected type is the requested one. -/
def searchLoopA (title : String) (year : Option Nat) (ty : String) :
    List PlexItemA → Option CheckResultA
  | [] => none
  | item :: rest =>
    if searchTitleMatchA title item.title && searchYearMatchA year item.year then
      some { found := true, plexTitle := some item.title, detectedType := some ty }
    else searchLoopA title year ty rest

/-- `searchByTitle` of implementation A; the second component counts Plex
search requests issued. -/
def searchByTitleA (env : EnvA) (title : String) (year : Option Nat) (ty : String) :
    Option CheckResultA × Nat :=
  let plexType := if ty == "show" then "2" else "1"
  (searchLoopA title year ty (env.searchResults title plexType), 1)

/-- Request counters over one `checkIfInPlex` call of implementation A. -/
structure CallStatsA where
  tautulliFetches : Nat
  searchFetches : Nat
deriving DecidableEq

/-- The not-found result. -/
def notFoundA : CheckResultA := { found := false, plexTitle := none, detectedType := none }

/-- The cross-type retry of implementation A's Tier 2: the title search is
repeated with the opposite media type and, on a hit, the detected type is
overridden with that opposite type. -/
def checkIfInPlexAltA (env : EnvA) (title : String) (year : Option Nat)
    (ty : String) (tn sn : Nat) : CheckResultA × CallStatsA :=
  let otherType := if ty == "movie" then "show" else "movie"
  let (ares, an) := searchByTitleA env title year otherType
  match ares with
  | some r =>
    if r.found then
      ({ r with detectedType := some otherType },
       { tautulliFetches := tn, searchFetches := sn + an })
    else (notFoundA, { tautulliFetches := tn, searchFetches := sn + an })
  | none => (notFoundA, { tautulliFetches := tn, searchFetches := sn + an })

/-- Tier 2 of implementation A: runs the title search only when no external
id is present, then the cross-type retry. -/
def checkIfInPlexTier2A (env : EnvA) (title : String) (year : Option Nat)
    (ty : String) (id : Option String) (tn : Nat) : CheckResultA × CallStatsA :=
  if !strTruthy id then
    let (sres, sn) := searchByTitleA env title year ty
    match sres with
    | some r =>
      if r.found then (r, { tautulliFetches := tn, searchFetches := sn })
      else checkIfInPlexAltA env title year ty tn sn
    | none => checkIfInPlexAltA env title year ty tn sn
  else (notFoundA, { tautulliFetches := tn, searchFetches := 0 })

/-- `checkIfInPlex` of implementation A: Tier 0 GUID-index lookup, Tier 1
Tautulli, Tier 2 title search (only when no external id is present), with a
cross-type retry of Tier 2. -/
def checkIfInPlexA (env : EnvA) (cfg : ConfigA) (idx0 : GuidIndexA) (title : String)
    (year : Option Nat) (ty : String) (provider id : Option String) :
    CheckResultA × CallStatsA :=
  let idx := if idx0.loaded then idx0
    else buildGuidIndex (getLibrarySectionsA env.rawSections cfg.excludeLibraries)
  match (if strTruthy id then lookupByGuid idx provider id else none) with
  | some indexed =>
    ({ found := true, plexTitle := some indexed.title, detectedType := some indexed.type },
     { tautulliFetches := 0, searchFetches := 0 })
  | none =>
    let (tres, tn) := checkViaTautulliA env cfg idx title year provider id
    match tres with
    | some r =>
      if r.found then (r, { tautulliFetches := tn, searchFetches := 0 })
      else checkIfInPlexTier2A env title year ty id tn
    | none => checkIfInPlexTier2A env title year ty id tn

/-! ## Implementation B: normalizer and id matching -/

/-- Implementation B's `normalize`: lowercase, strip diacritics, then drop
every character outside `a-z0-9` (the regular expression `[^a-z0-9]`).
As for `normalizeA`, NFD decomposition itself is not modelled. -/
def normalizeB (s : String) : String :=
  if s == "" then "" else
  let cs := s.data.map Char.toLower
  let cs := cs.filter (fun c => !isCombiningMark c)
  ⟨cs.filter (fun c => ('a' ≤ c && c ≤ 'z') || ('0' ≤ c && c ≤ '9'))⟩

/-- A library item as implementation B sees it: search results, section
enumerations and `/library/metadata` detail responses.  `Guid` is the list
of external Guid tag strings; `guidLegacy` is the single legacy `guid`
field. -/
structure PlexItemB where
  title : String
  originalTitle : Option String
  year : Option Nat
  ratingKey : Option String
  librarySectionID : String
  Guid : List String
  guidLegacy : Option String
deriving DecidableEq

/-- `isIdMatch`: strict `provider://id` equality over the Guid tags, with an
IMDb fallback for `tt…` ids and a TVDB fallback for the `thetvdb` scheme,
each also probing the legacy `guid` field. -/
def isIdMatchB (item : PlexItemB) (provider id : Option String) : Bool :=
  if !strTruthy provider || !strTruthy id then false
  else
    let p := provider.getD ""
    let i := id.getD ""
    let targetGuid := p ++ "://" ++ i
    let m1 := item.Guid.any (fun g => g == targetGuid)
    let m2 :=
      if !m1 && jsStartsWith i "tt" then
        if item.Guid.any (fun g => jsEndsWith g ("://" ++ i)) then true
        else if strTruthy item.guidLegacy then
          let lg := item.guidLegacy.getD ""
          jsIncludes lg ("://" ++ i) || jsEndsWith lg i
        else false
      else m1
    if !m2 && p == "tvdb" then
      if item.Guid.any (fun g => g == ("thetvdb://" ++ i) || jsEndsWith g ("/" ++ i)) then
        true
      else if strTruthy item.guidLegacy then
        let lg := item.guidLegacy.getD ""
        jsIncludes lg ("thetvdb://" ++ i) || jsIncludes lg ("tvdb://" ++ i)
      else false
    else m2

/-! ## Implementation B: environment and Tautulli tier -/

/-- A section as implementation B passes it around: id and type only. -/
structure SectionB where
  id : String
  type : String
deriving DecidableEq

/-- A raw section from the `/library/sections` response. -/
structure RawSectionB where
  id : String
  type : String
  title : String
deriving DecidableEq

/-- A Tautulli candidate row; only the rating key is consulted. -/
structure TautulliRowB where
  rating_key : Option String
deriving DecidableEq

/-- The remote collaborators of implementation B.  `sectionItems sid y`
is the full (pagination collapsed) enumeration of section `sid`, filtered to
year `y` when `y` is present; the numeric Plex type parameter of the request
is implied by the section. -/
structure EnvB where
  rawSections : List RawSectionB
  tautulliRows : String → String → List TautulliRowB
  itemDetails : String → Option PlexItemB
  searchResults : String → String → List PlexItemB
  sectionItems : String → Option Nat → List PlexItemB

/-- `getLibrarySections` of implementation B. -/
def getLibrarySectionsB (allSections : List RawSectionB) (excludeLibraries : List String) :
    List SectionB :=
  ((allSections.filter (fun s => s.type == "movie" || s.type == "show")).filter
    (fun s => !(excludeLibraries.contains s.title))).map
    (fun s => { id := s.id, type := s.type })

/-- The result shape of `checkTypeInPlex` (found flag and matched title). -/
structure TypeResB where
  found : Bool
  plexTitle : Option String
deriving DecidableEq

/-- The result shape of implementation B's `checkIfInPlex`. -/
structure CheckResultB where
  found : Bool
  plexTitle : Option String
  detectedType : Option String
deriving DecidableEq

/-- Candidate accumulation with deduplication by rating key, as in the
title-search step of implementation B's `checkViaTautulli`. -/
def dedupPushB (cands items : List TautulliRowB) : List TautulliRowB :=
  items.foldl
    (fun acc it => if acc.any (fun c => c.rating_key == it.rating_key) then acc
                   else acc ++ [it]) cands

/-- The candidate-verification loop of implementation B's `checkViaTautulli`:
each candidate's full metadata is fetched and checked with `isIdMatch`. -/
def tautulliCandLoopB (env : EnvB) (provider id : Option String)
    (detectedType : Option String) : List TautulliRowB → Option CheckResultB
  | [] => none
  | c :: rest =>
    if !strTruthy c.rating_key then tautulliCandLoopB env provider id detectedType rest
    else
      match env.itemDetails (c.rating_key.getD "") with
      | some fullItem =>
        if isIdMatchB fullItem provider id then
          some { found := true, plexTitle := some fullItem.title,
                 detectedType := detectedType }
        else tautulliCandLoopB env provider id detectedType rest
      | none => tautulliCandLoopB env provider id detectedType rest

/-- One section of implementation B's `checkViaTautulli`. -/
def tautulliSectionB (env : EnvB) (title : String) (provider id : Option String)
    (sectionsList : List SectionB) (sid : String) : Option CheckResultB :=
  let candidates :=
    if strTruthy id then env.tautulliRows sid (id.getD "") else []
  let candidates :=
    if candidates.isEmpty && strNonEmpty title then
      dedupPushB candidates (env.tautulliRows sid title)
    else candidates
  let detectedType := (sectionsList.find? (fun s => s.id == sid)).map (fun s => s.type)
  tautulliCandLoopB env provider id detectedType candidates

/-- The section loop of implementation B's `checkViaTautulli`. -/
def tautulliSecsLoopB (env : EnvB) (title : String) (provider id : Option String)
    (sectionsList : List SectionB) : List String → Option CheckResultB
  | [] => none
  | sid :: rest =>
    match tautulliSectionB env title provider id sectionsList sid with
    | some r => some r
    | none => tautulliSecsLoopB env title provider id sectionsList rest

/-- `checkViaTautulli` of implementation B.  The `year` argument is accepted
but unused, exactly as in the source. -/
def checkViaTautulliB (env : EnvB) (tautulliConfigured : Bool) (title : String)
    (_year : Option Nat) (provider id : Option String)
    (sectionsList : List SectionB) : Option CheckResultB :=
  if !tautulliConfigured then none
  else tautulliSecsLoopB env title provider id sectionsList (sectionsList.map (fun s => s.id))

/-! ## Implementation B: checkTypeInPlex (M1, M2, M3) and the scan cache -/

/-- The per-cycle scan cache.  The source keys it by the strings
`sid_year` (M2) and `sid_ALL` (M3); the key is modelled structurally as the
pair of the section id and the optional year. -/
abbrev CacheB : Type := List ((String × Option Nat) × List PlexItemB)

/-- The M1 candidate loop: skip items outside the relevant sections; with an
external id, accept only on `isIdMatch` (title matching is skipped); without
one, accept on strict normalized title plus year tolerance. -/
def m1LoopB (relevant : List String) (title : String) (year : Option Nat)
    (provider id : Option String) : List PlexItemB → Option TypeResB
  | [] => none
  | item :: rest =>
    if decide (0 < relevant.length) && !(relevant.contains item.librarySectionID) then
      m1LoopB relevant title year provider id rest
    else if strTruthy provider && strTruthy id then
      if isIdMatchB item provider id then
        some { found := true, plexTitle := some item.title }
      else m1LoopB relevant title year provider id rest
    else
      let yearMatch := !natTruthy year || !natTruthy item.year
        || decide (((item.year.getD 0 : Int) - (year.getD 0 : Int)).natAbs ≤ 1)
      let cleanTitle := normalizeB title
      let cleanPlexTitle := normalizeB item.title
      let cleanOriginal := normalizeB (item.originalTitle.getD "")
      if yearMatch && (cleanTitle == cleanPlexTitle || cleanTitle == cleanOriginal) then
        some { found := true, plexTitle := some item.title }
      else m1LoopB relevant title year provider id rest

/-- Cache lookup (JavaScript `scanCache.get`/`has`). -/
def cacheGetB (k : String × Option Nat) : CacheB → Option (List PlexItemB)
  | [] => none
  | (k0, v) :: rest => if k = k0 then some v else cacheGetB k rest

/-- The memoized section/year enumeration: on a cache hit the cached items
are returned with zero fetches; on a miss the collaborator is queried once
and the result is stored. -/
def getSectionItemsB (env : EnvB) (cache : CacheB) (sid : String) (yr : Option Nat) :
    List PlexItemB × CacheB × Nat :=
  match cacheGetB (sid, yr) cache with
  | some items => (items, cache, 0)
  | none =>
    let items := env.sectionItems sid yr
    (items, ((sid, yr), items) :: cache, 1)

/-- A scan cache is consistent with the environment when every cached
section/year key holds exactly that enumeration's result.  The empty cache
(the state after `clearScanCache`) is trivially consistent, and consistency
is preserved by every cache write the scanner performs. -/
def cacheConsistentB (env : EnvB) (cache : CacheB) : Prop :=
  ∀ (sid : String) (yr : Option Nat) (items : List PlexItemB),
    cacheGetB (sid, yr) cache = some items → items = env.sectionItems sid yr

/-- The deep-scan loop (shows only): items without Guid tags have their full
metadata fetched and re-checked. -/
def deepScanLoopB (env : EnvB) (provider id : Option String) :
    List PlexItemB → Option TypeResB
  | [] => none
  | it :: rest =>
    if !strTruthy it.ratingKey then deepScanLoopB env provider id rest
    else
      match env.itemDetails (it.ratingKey.getD "") with
      | some fullItem =>
        if isIdMatchB fullItem provider id then
          some { found := true, plexTitle := some fullItem.title }
        else deepScanLoopB env provider id rest
      | none => deepScanLoopB env provider id rest

/-- Direct id comparison over a list of enumerated items. -/
def idScanListB (provider id : Option String) : List PlexItemB → Option TypeResB
  | [] => none
  | it :: rest =>
    if isIdMatchB it provider id then some { found := true, plexTitle := some it.title }
    else idScanListB provider id rest

/-- Processing of one enumerated item list in M2/M3: direct id scan, then
the deep scan for show sections. -/
def scanItemsB (env : EnvB) (provider id : Option String) (plexType : String)
    (items : List PlexItemB) : Option TypeResB :=
  match idScanListB provider id items with
  | some r => some r
  | none =>
    if plexType == "2" then
      deepScanLoopB env provider id (items.filter (fun i => i.Guid.isEmpty))
    else none

/-- The inner (year) loop of M2 for one section. -/
def m2YearLoopB (env : EnvB) (provider id : Option String) (plexType sid : String) :
    List Nat → CacheB → Option TypeResB × CacheB × Nat
  | [], cache => (none, cache, 0)
  | yv :: rest, cache =>
    let (items, cache1, n1) := getSectionItemsB env cache sid (some yv)
    match scanItemsB env provider id plexType items with
    | some r => (some r, cache1, n1)
    | none =>
      let (r2, cache2, n2) := m2YearLoopB env provider id plexType sid rest cache1
      (r2, cache2, n1 + n2)

/-- The outer (section) loop of M2. -/
def m2SectionLoopB (env : EnvB) (provider id : Option String) (plexType : String)
    (years : List Nat) : List String → CacheB → Option TypeResB × CacheB × Nat
  | [], cache => (none, cache, 0)
  | sid :: rest, cache =>
    let (r1, cache1, n1) := m2YearLoopB env provider id plexType sid years cache
    match r1 with
    | some r => (some r, cache1, n1)
    | none =>
      let (r2, cache2, n2) := m2SectionLoopB env provider id plexType years rest cache1
      (r2, cache2, n1 + n2)

/-- The section loop of M3: full enumeration (no year filter) of each
relevant section. -/
def m3SectionLoopB (env : EnvB) (provider id : Option String) (plexType : String) :
    List String → CacheB → Option TypeResB × CacheB × Nat
  | [], cache => (none, cache, 0)
  | sid :: rest, cache =>
    let (items, cache1, n1) := getSectionItemsB env cache sid none
    match scanItemsB env provider id plexType items with
    | some r => (some r, cache1, n1)
    | none =>
      let (r2, cache2, n2) := m3SectionLoopB env provider id plexType rest cache1
      (r2, cache2, n1 + n2)

/-- JavaScript `[...new Set(l)]`: deduplication keeping first occurrences. -/
def jsUniq (l : List Nat) : List Nat :=
  l.foldl (fun acc x => if acc.contains x then acc else acc ++ [x]) []

/-- The year window scanned by M2 for a known year: the year itself and its
two neighbours, restricted to the plausible range. -/
def yearWindowB (y : Nat) : List Nat :=
  (jsUniq [y, y - 1, y + 1]).filter (fun v => decide (1900 < v) && decide (v < 2100))

/-- `checkTypeInPlex` of implementation B: M1 title search, then (id and
year present) the M2 year-windowed scan, then (id present) the M3 full scan.
The third component counts section-enumeration fetches issued. -/
def checkTypeInPlexB (env : EnvB) (cache : CacheB) (title : String)
    (year : Option Nat) (ty : String) (provider id : Option String)
    (sectionsList : List SectionB) : TypeResB × CacheB × Nat :=
  let plexType := if ty == "show" then "2" else "1"
  let relevant := (sectionsList.filter (fun s => s.type == ty)).map (fun s => s.id)
  match m1LoopB relevant title year provider id (env.searchResults title plexType) with
  | some r => (r, cache, 0)
  | none =>
    let m2out :=
      if strTruthy id && natTruthy year then
        m2SectionLoopB env provider id plexType (yearWindowB (year.getD 0)) relevant cache
      else (none, cache, 0)
    match m2out with
    | (some r, cache2, n2) => (r, cache2, n2)
    | (none, cache2, n2) =>
      let m3out :=
        if strTruthy id then m3SectionLoopB env provider id plexType relevant cache2
        else (none, cache2, 0)
      match m3out with
      | (some r, cache3, n3) => (r, cache3, n2 + n3)
      | (none, cache3, n3) => ({ found := false, plexTitle := none }, cache3, n2 + n3)

/-- `checkIfInPlex` of implementation B: Tautulli first, then
`checkTypeInPlex` with the declared type, then with the opposite type. -/
def checkIfInPlexB (env : EnvB) (tautulliConfigured : Bool)
    (excludeLibraries : List String) (cache : CacheB) (title : String)
    (year : Option Nat) (ty : String) (provider id : Option String) :
    CheckResultB × CacheB × Nat :=
  let sectionsList := getLibrarySectionsB env.rawSections excludeLibraries
  match checkViaTautulliB env tautulliConfigured title year provider id sectionsList with
  | some r =>
    ({ r with detectedType := if strTruthy r.detectedType then r.detectedType else some ty },
     cache, 0)
  | none =>
    let (r1, cache1, n1) := checkTypeInPlexB env cache title year ty provider id sectionsList
    if r1.found then
      ({ found := r1.found, plexTitle := r1.plexTitle, detectedType := some ty }, cache1, n1)
    else
      let otherType := if ty == "movie" then "show" else "movie"
      let (r2, cache2, n2) :=
        checkTypeInPlexB env cache1 title year otherType provider id sectionsList
      if r2.found then
        ({ found := r2.found, plexTitle := r2.plexTitle, detectedType := some otherType },
         cache2, n1 + n2)
      else
        ({ found := false, plexTitle := none, detectedType := none }, cache2, n1 + n2)

/-! ## index.js: persisted entries and the scan cycle -/

/-- A persisted tracked entry of watchlist.json. -/
structure TrackedEntry where
  title : String
  year : Option Nat
  type : String
  provider : Option String
  id : Option String
  status : String
  addedAt : Option Nat
deriving DecidableEq

/-- A watchlist entry from the RSS feed collaborator. -/
structure FeedItem where
  title : String
  year : Option Nat
  provider : Option String
  id : Option String
  type : String
deriving DecidableEq

/-- The entry-retrieval predicate of the scan loop: external (provider, id)
equality when both sides carry one, otherwise (title, type) equality. -/
def entryMatchesItem (e : TrackedEntry) (it : FeedItem) : Bool :=
  if strTruthy e.provider && strTruthy e.id && strTruthy it.provider && strTruthy it.id then
    e.provider == it.provider && e.id == it.id
  else
    e.title == it.title && e.type == it.type

/-- The entry created for a feed item seen for the first time. -/
def newEntryFor (it : FeedItem) (res : CheckResultA) (now : Nat) : TrackedEntry :=
  { title := if res.found && strTruthy res.plexTitle then res.plexTitle.getD "" else it.title,
    year := it.year,
    type := if res.found && strTruthy res.detectedType then res.detectedType.getD "" else it.type,
    provider := it.provider,
    id := it.id,
    status := if res.found then "added" else "pending",
    addedAt := if res.found then some now else none }

/-- The in-place update of an existing entry: type correction (Plex first,
then RSS), title update, pending-to-added promotion (the boolean reports the
push onto `addedThisScan`), and the added-to-pending downgrade when the item
is no longer found. -/
def updateEntry (e0 : TrackedEntry) (it : FeedItem) (res : CheckResultA) (now : Nat) :
    TrackedEntry × Bool :=
  let e1 :=
    if res.found && strTruthy res.detectedType && !(e0.type == res.detectedType.getD "") then
      { e0 with type := res.detectedType.getD "" }
    else if !(e0.type == it.type) then { e0 with type := it.type }
    else e0
  let e2 :=
    if res.found && strTruthy res.plexTitle && !(e1.title == res.plexTitle.getD "") then
      { e1 with title := res.plexTitle.getD "" }
    else e1
  let step3 :=
    if res.found && !(e2.status == "added") then
      ({ e2 with status := "added", addedAt := some now }, true)
    else (e2, false)
  let e4 :=
    if !res.found && step3.1.status == "added" then { step3.1 with status := "pending" }
    else step3.1
  (e4, step3.2)

/-- Application of `updateEntry` to the first entry matching the feed item;
`none` when no entry matches.  The second component is the snapshot pushed
onto `addedThisScan`, when any. -/
def applyToFirstMatch (it : FeedItem) (res : CheckResultA) (now : Nat) :
    List TrackedEntry → Option (List TrackedEntry × Option TrackedEntry)
  | [] => none
  | e :: rest =>
    if entryMatchesItem e it then
      let (e2, pushed) := updateEntry e it res now
      some (e2 :: rest, if pushed then some e2 else none)
    else
      match applyToFirstMatch it res now rest with
      | some (rest2, p) => some (e :: rest2, p)
      | none => none

/-- Processing of one feed item against the persisted entries.  The second
state component is `addedThisScan`; JavaScript stores object references in
it, modelled here as snapshots taken at push time (sufficient for the count
and status facts proved below). -/
def processItem (now : Nat) (res : CheckResultA)
    (st : List TrackedEntry × List TrackedEntry) (it : FeedItem) :
    List TrackedEntry × List TrackedEntry :=
  let (entries, added) := st
  match applyToFirstMatch it res now entries with
  | some (entries2, p) => (entries2, added ++ p.toList)
  | none =>
    let e := newEntryFor it res now
    (entries ++ [e], added ++ (if res.found then [e] else []))

/-- The scan loop over all feed items; `plex` is the availability oracle
(the `checkIfInPlex` result for each item). -/
def scanLoop (now : Nat) (plex : FeedItem → CheckResultA) (entries : List TrackedEntry)
    (items : List FeedItem) : List TrackedEntry × List TrackedEntry :=
  items.foldl (fun st it => processItem now (plex it) st it) (entries, [])

/-- The cleanup predicate: entries with status `added` are always kept;
other entries are kept only when some current feed item matches them (id
pair when both sides have one, otherwise title only). -/
def cleanupKeep (allItems : List FeedItem) (e : TrackedEntry) : Bool :=
  if e.status == "added" then true
  else allItems.any (fun it =>
    if strTruthy it.provider && strTruthy it.id && strTruthy e.provider && strTruthy e.id then
      it.provider == e.provider && it.id == e.id
    else it.title == e.title)

/-- The cleanup step of the cycle. -/
def cleanupEntries (entries : List TrackedEntry) (allItems : List FeedItem) :
    List TrackedEntry :=
  entries.filter (cleanupKeep allItems)

/-- The observable outcome of one scan cycle. -/
structure CycleOutcome where
  entries : List TrackedEntry
  addedThisScan : List TrackedEntry
  notificationSent : Bool
  addedFilms : Nat
  addedShows : Nat
deriving DecidableEq

/-- The body of one scan cycle: process every feed item, clean up, and send
the added-content notification only when `0 < count < 50`. -/
def runCycleBody (now : Nat) (plex : FeedItem → CheckResultA)
    (entries0 : List TrackedEntry) (allItems : List FeedItem) : CycleOutcome :=
  let (entries1, added) := scanLoop now plex entries0 allItems
  let entries2 := cleanupEntries entries1 allItems
  { entries := entries2,
    addedThisScan := added,
    notificationSent := decide (0 < added.length) && decide (added.length < 50),
    addedFilms := (added.filter (fun e => e.type == "movie")).length,
    addedShows := (added.filter (fun e => e.type == "show")).length }

/-- The bot state guarded by the cycle-level mutual-exclusion flag. -/
structure BotState where
  isScanning : Bool
  entries : List TrackedEntry
deriving DecidableEq

/-- The value returned by `run`. -/
structure RunReturn where
  addedFilms : Nat
  addedShows : Nat
deriving DecidableEq

/-- `run` of index.js: when a scan is already in progress the request is
dropped with zero counts and nothing else happens (the third component,
`none`, records that no cycle ran, so nothing was notified or persisted);
otherwise the cycle body runs and its outcome is persisted. -/
def run (now : Nat) (plex : FeedItem → CheckResultA) (allItems : List FeedItem)
    (st : BotState) : BotState × RunReturn × Option CycleOutcome :=
  if st.isScanning then
    (st, { addedFilms := 0, addedShows := 0 }, none)
  else
    let o := runCycleBody now plex st.entries allItems
    ({ isScanning := false, entries := o.entries },
     { addedFilms := o.addedFilms, addedShows := o.addedShows }, some o)

/-! ## Concrete inputs used by the evaluation theorems and witnesses -/

/-- A show item carrying only a legacy-scheme TVDB tag. -/
def thetvdbItem : PlexItemA :=
  { title := "Some Show", year := some 2015, ratingKey := "42",
    guids := ["thetvdb://123456"] }

/-- The section containing `thetvdbItem`. -/
def thetvdbSection : LibSectionA :=
  { id := "3", type := "show", title := "TV", items := [thetvdbItem] }

/-- The index entry `buildGuidIndex` records for `thetvdbItem`. -/
def thetvdbEntry : IndexEntryA :=
  { title := "Some Show", year := some 2015, ratingKey := "42",
    type := "show", sectionId := "3" }

/-- The same show tagged with the modern `tvdb://` scheme. -/
def plainTvdbItem : PlexItemA :=
  { title := "Some Show", year := some 2015, ratingKey := "42",
    guids := ["tvdb://123456"] }

/-- The section containing `plainTvdbItem`. -/
def plainTvdbSection : LibSectionA :=
  { id := "3", type := "show", title := "TV", items := [plainTvdbItem] }

/-- A movie item indexed under its IMDb id. -/
def inceptionItem : PlexItemA :=
  { title := "Inception", year := some 2010, ratingKey := "7",
    guids := ["imdb://tt1375666"] }

/-- The section containing `inceptionItem`. -/
def inceptionSection : LibSectionA :=
  { id := "1", type := "movie", title := "Movies", items := [inceptionItem] }

/-- The index entry `buildGuidIndex` records for `inceptionItem`. -/
def inceptionEntry : IndexEntryA :=
  { title := "Inception", year := some 2010, ratingKey := "7",
    type := "movie", sectionId := "1" }

/-- An environment for implementation A whose collaborators return nothing. -/
def emptyEnvA : EnvA :=
  { rawSections := [], tautulliRows := fun _ _ => [], searchResults := fun _ _ => [] }

/-- A configuration with Tautulli enabled and no exclusions. -/
def defaultCfgA : ConfigA := { excludeLibraries := [], tautulliConfigured := true }

/-- An already-added tracked entry used in the cycle-level examples. -/
def goneEntry : TrackedEntry :=
  { title := "Gone", year := some 2020, type := "movie", provider := some "imdb",
    id := some "tt999", status := "added", addedAt := some 5 }

/-- A feed item matching `goneEntry` by its external id. -/
def goneFeedItem : FeedItem :=
  { title := "Gone", year := some 2020, provider := some "imdb",
    id := some "tt999", type := "movie" }

/-- A feed item carrying an external id, used by the uniqueness witness. -/
def freshFeedItem : FeedItem :=
  { title := "Fresh", year := some 2021, provider := some "tmdb",
    id := some "777", type := "movie" }

/-- A found availability result for `freshFeedItem`. -/
def freshFoundRes : CheckResultA :=
  { found := true, plexTitle := some "Fresh", detectedType := some "movie" }

/-- A show item (implementation B), tagged with a TVDB id, discoverable via
title search in the show section. -/
def crossShowItem : PlexItemB :=
  { title := "Berserk", originalTitle := none, year := some 1997,
    ratingKey := some "9", librarySectionID := "2",
    Guid := ["tvdb://73752"], guidLegacy := none }

/-- An environment for implementation B with one show section whose title
search returns `crossShowItem` for show-typed queries only. -/
def crossEnvB : EnvB :=
  { rawSections := [{ id := "2", type := "show", title := "TV" }],
    tautulliRows := fun _ _ => [],
    itemDetails := fun _ => none,
    searchResults := fun _ t => if t = "2" then [crossShowItem] else [],
    sectionItems := fun _ _ => [] }

/-- A movie item (implementation B) carrying an IMDb tag, reachable only by
full section enumeration. -/
def scanMovieItem : PlexItemB :=
  { title := "Obscure", originalTitle := none, year := some 2000,
    ratingKey := some "11", librarySectionID := "1",
    Guid := ["imdb://tt777"], guidLegacy := none }

/-- An environment for implementation B in which `scanMovieItem` appears
only in the year-unfiltered enumeration of section 1 (search and Tautulli
return nothing), so only the exhaustive M3 scan can find it. -/
def scanEnvB : EnvB :=
  { rawSections := [{ id := "1", type := "movie", title := "Movies" }],
    tautulliRows := fun _ _ => [],
    itemDetails := fun _ => none,
    searchResults := fun _ _ => [],
    sectionItems := fun sid yr =>
      match yr with
      | none => if sid = "1" then [scanMovieItem] else []
      | some _ => [] }

/-- The one movie section of `scanEnvB`, as a `SectionB`. -/
def scanSectionB : SectionB := { id := "1", type := "movie" }

/-! ## Invariant: distinctness of external identifier pairs -/

/-- Does the entry carry a usable external identifier (provider and id both
present and non-empty, the code's truthiness test)? -/
def hasExtId (e : TrackedEntry) : Bool := strTruthy e.provider && strTruthy e.id

/-- Two entries do not share one external identifier pair (vacuous unless
both carry one). -/
def DistinctExt (a b : TrackedEntry) : Prop :=
  hasExtId a = true → hasExtId b = true → ¬(a.provider = b.provider ∧ a.id = b.id)

/-! ## Cycle-level helper lemmas -/

theorem cleanupEntries_keeps_added (entries : List TrackedEntry) (items : List FeedItem)
    (e : TrackedEntry) (he : e ∈ entries) (hs : e.status = "added") :
    e ∈ cleanupEntries entries items := by
  refine List.mem_filter.mpr ⟨he, ?_⟩
  simp [cleanupKeep, hs]

theorem updateEntry_keeps_ext (e : TrackedEntry) (it : FeedItem) (res : CheckResultA)
    (now : Nat) :
    (updateEntry e it res now).1.provider = e.provider
      ∧ (updateEntry e it res now).1.id = e.id := by
  simp only [updateEntry]
  split_ifs <;> simp

theorem updateEntry_pushed_status (e : TrackedEntry) (it : FeedItem) (res : CheckResultA)
    (now : Nat) (h : (updateEntry e it res now).2 = true) :
    (updateEntry e it res now).1.status = "added" := by
  simp only [updateEntry] at h ⊢
  split_ifs at h ⊢ <;> simp_all

theorem updateEntry_downgrade (e : TrackedEntry) (it : FeedItem) (res : CheckResultA)
    (now : Nat) (hf : res.found = false) (hs : e.status = "added") :
    (updateEntry e it res now).1.status = "pending" := by
  simp only [updateEntry, hf] at *
  split_ifs <;> simp_all

theorem applyToFirstMatch_none_forall (it : FeedItem) (res : CheckResultA) (now : Nat)
    (l : List TrackedEntry) (h : applyToFirstMatch it res now l = none) :
    ∀ e ∈ l, entryMatchesItem e it = false := by
  induction l with
  | nil => simp
  | cons a l ih =>
    intro e he
    by_cases hm : entryMatchesItem a it = true
    · simp [applyToFirstMatch, hm] at h
    · simp only [applyToFirstMatch, hm, Bool.false_eq_true, if_false] at h
      rcases List.mem_cons.mp he with rfl | he2
      · simpa using hm
      · rcases h2 : applyToFirstMatch it res now l with _ | p
        · exact ih h2 e he2
        · rw [h2] at h; simp at h

theorem applyToFirstMatch_forall2 (it : FeedItem) (res : CheckResultA) (now : Nat)
    (l l2 : List TrackedEntry) (p : Option TrackedEntry)
    (h : applyToFirstMatch it res now l = some (l2, p)) :
    List.Forall₂ (fun a b => b.provider = a.provider ∧ b.id = a.id) l l2 := by
  induction l generalizing l2 p with
  | nil => simp [applyToFirstMatch] at h
  | cons a l ih =>
    by_cases hm : entryMatchesItem a it = true
    · simp only [applyToFirstMatch, hm, if_true] at h
      obtain ⟨rfl, rfl⟩ : (updateEntry a it res now).1 :: l = l2 ∧
          (if (updateEntry a it res now).2 then some (updateEntry a it res now).1
           else none) = p := by
        constructor <;> [exact congrArg Prod.fst (Option.some.inj h);
                         exact congrArg Prod.snd (Option.some.inj h)]
      refine List.Forall₂.cons ?_ ?_
      · exact updateEntry_keeps_ext a it res now
      · exact (List.forall₂_same).mpr (fun x _ => ⟨rfl, rfl⟩)
    · simp only [applyToFirstMatch, hm, Bool.false_eq_true, if_false] at h
      rcases h2 : applyToFirstMatch it res now l with _ | q
      · rw [h2] at h; simp at h
      · rw [h2] at h
        rcases q with ⟨rest2, p0⟩
        obtain ⟨rfl, rfl⟩ : a :: rest2 = l2 ∧ p0 = p := by
          have := Option.some.inj h
          exact ⟨congrArg Prod.fst this, congrArg Prod.snd this⟩
        exact List.Forall₂.cons ⟨rfl, rfl⟩ (ih rest2 p0 h2)

theorem applyToFirstMatch_pushed_status (it : FeedItem) (res : CheckResultA) (now : Nat)
    (l l2 : List TrackedEntry) (x : TrackedEntry)
    (h : applyToFirstMatch it res now l = some (l2, some x)) :
    x.status = "added" := by
  induction l generalizing l2 with
  | nil => simp [applyToFirstMatch] at h
  | cons a l ih =>
    by_cases hm : entryMatchesItem a it = true
    · simp only [applyToFirstMatch, hm, if_true] at h
      have hp := congrArg Prod.snd (Option.some.inj h)
      by_cases hb : (updateEntry a it res now).2 = true
      · simp only [hb, if_true] at hp
        have hx : (updateEntry a it res now).1 = x := Option.some.inj hp
        rw [← hx]
        exact updateEntry_pushed_status a it res now hb
      · simp only [Bool.not_eq_true] at hb
        simp [hb] at hp
    · simp only [applyToFirstMatch, hm, Bool.false_eq_true, if_false] at h
      rcases h2 : applyToFirstMatch it res now l with _ | q
      · rw [h2] at h; simp at h
      · rw [h2] at h
        rcases q with ⟨rest2, p0⟩
        have hp := congrArg Prod.snd (Option.some.inj h)
        dsimp at hp
        exact ih rest2 (by rw [h2, hp])

theorem distinctExt_of_eq (a a2 b b2 : TrackedEntry)
    (hpa : a2.provider = a.provider) (hia : a2.id = a.id)
    (hpb : b2.provider = b.provider) (hib : b2.id = b.id)
    (h : DistinctExt a b) : DistinctExt a2 b2 := by
  intro h1 h2 hEq
  have h1a : hasExtId a = true := by
    unfold hasExtId at h1 ⊢; rw [hpa, hia] at h1; exact h1
  have h2b : hasExtId b = true := by
    unfold hasExtId at h2 ⊢; rw [hpb, hib] at h2; exact h2
  exact h h1a h2b ⟨by rw [← hpa, ← hpb]; exact hEq.1, by rw [← hia, ← hib]; exact hEq.2⟩

theorem forall2_mem_right {R : TrackedEntry → TrackedEntry → Prop}
    {l l2 : List TrackedEntry} (hF : List.Forall₂ R l l2) :
    ∀ y ∈ l2, ∃ x ∈ l, R x y := by
  induction hF with
  | nil => simp
  | cons hab hF ih =>
    intro y hy
    rcases List.mem_cons.mp hy with rfl | hy2
    · exact ⟨_, List.mem_cons_self _ _, hab⟩
    · obtain ⟨x, hx, hxy⟩ := ih y hy2
      exact ⟨x, List.mem_cons_of_mem _ hx, hxy⟩

theorem pairwise_transport {l l2 : List TrackedEntry}
    (hF : List.Forall₂ (fun a b => b.provider = a.provider ∧ b.id = a.id) l l2)
    (hP : l.Pairwise DistinctExt) : l2.Pairwise DistinctExt := by
  induction hF with
  | nil => exact List.Pairwise.nil
  | cons hab hF ih =>
    rcases List.pairwise_cons.mp hP with ⟨hHead, hTail⟩
    refine List.pairwise_cons.mpr ⟨?_, ih hTail⟩
    intro y hy
    obtain ⟨x, hx, hxy⟩ := forall2_mem_right hF y hy
    exact distinctExt_of_eq _ _ _ _ hab.1 hab.2 hxy.1 hxy.2 (hHead x hx)

theorem pairwise_append_new (l : List TrackedEntry) (x : TrackedEntry)
    (h1 : l.Pairwise DistinctExt) (h2 : ∀ a ∈ l, DistinctExt a x) :
    (l ++ [x]).Pairwise DistinctExt := by
  rw [List.pairwise_append]
  refine ⟨h1, List.pairwise_singleton _ _, ?_⟩
  intro a ha b hb
  rcases List.mem_singleton.mp hb with rfl
  exact h2 a ha

theorem distinct_of_no_match (a : TrackedEntry) (it : FeedItem) (res : CheckResultA)
    (now : Nat) (hm : entryMatchesItem a it = false) :
    DistinctExt a (newEntryFor it res now) := by
  intro h1 h2 hEq
  have hp : a.provider = it.provider := by
    simpa [newEntryFor] using hEq.1
  have hi : a.id = it.id := by
    simpa [newEntryFor] using hEq.2
  have h2it : strTruthy it.provider = true ∧ strTruthy it.id = true := by
    unfold hasExtId at h2
    simpa [newEntryFor, Bool.and_eq_true] using h2
  have h1a : strTruthy a.provider = true ∧ strTruthy a.id = true := by
    unfold hasExtId at h1
    simpa [Bool.and_eq_true] using h1
  unfold entryMatchesItem at hm
  rw [if_pos (by simp [h1a.1, h1a.2, h2it.1, h2it.2])] at hm
  simp [hp, hi] at hm

theorem processItem_pairwise (now : Nat) (res : CheckResultA)
    (st : List TrackedEntry × List TrackedEntry) (it : FeedItem)
    (h : st.1.Pairwise DistinctExt) :
    ((processItem now res st it).1).Pairwise DistinctExt := by
  rcases st with ⟨entries, added⟩
  rcases h2 : applyToFirstMatch it res now entries with _ | q
  · simp only [processItem, h2]
    refine pairwise_append_new entries _ h ?_
    intro a ha
    exact distinct_of_no_match a it res now
      (applyToFirstMatch_none_forall it res now entries h2 a ha)
  · rcases q with ⟨entries2, p⟩
    simp only [processItem, h2]
    exact pairwise_transport (applyToFirstMatch_forall2 it res now entries entries2 p h2) h

theorem foldl_processItem_pairwise (now : Nat) (plex : FeedItem → CheckResultA)
    (items : List FeedItem) :
    ∀ st : List TrackedEntry × List TrackedEntry, st.1.Pairwise DistinctExt →
      ((items.foldl (fun st it => processItem now (plex it) st it) st).1).Pairwise
        DistinctExt := by
  induction items with
  | nil => intro st h; simpa using h
  | cons it items ih =>
    intro st h
    exact ih _ (processItem_pairwise now (plex it) st it h)

theorem processItem_added_status (now : Nat) (res : CheckResultA)
    (st : List TrackedEntry × List TrackedEntry) (it : FeedItem)
    (h : ∀ e ∈ st.2, e.status = "added") :
    ∀ e ∈ (processItem now res st it).2, e.status = "added" := by
  rcases st with ⟨entries, added⟩
  rcases h2 : applyToFirstMatch it res now entries with _ | q
  · simp only [processItem, h2]
    intro e he
    rcases List.mem_append.mp he with he1 | he2
    · exact h e he1
    · rcases hf : res.found
      · simp [hf] at he2
      · simp only [hf, if_true] at he2
        rcases List.mem_singleton.mp he2 with rfl
        simp [newEntryFor, hf]
  · rcases q with ⟨entries2, p⟩
    simp only [processItem, h2]
    intro e he
    rcases List.mem_append.mp he with he1 | he2
    · exact h e he1
    · rcases p with _ | x
      · simp at he2
      · rcases List.mem_singleton.mp (by simpa using he2) with rfl
        exact applyToFirstMatch_pushed_status it res now entries entries2 e h2

theorem foldl_processItem_added_status (now : Nat) (plex : FeedItem → CheckResultA)
    (items : List FeedItem) :
    ∀ st : List TrackedEntry × List TrackedEntry, (∀ e ∈ st.2, e.status = "added") →
      ∀ e ∈ (items.foldl (fun st it => processItem now (plex it) st it) st).2,
        e.status = "added" := by
  induction items with
  | nil => intro st h; simpa using h
  | cons it items ih =>
    intro st h
    exact ih _ (processItem_added_status now (plex it) st it h)

/-! ## Scan-cache and tier-loop lemmas for implementation B -/

theorem getSectionItemsB_hit (env : EnvB) (cache : CacheB) (sid : String)
    (yr : Option Nat) (items : List PlexItemB)
    (h : cacheGetB (sid, yr) cache = some items) :
    getSectionItemsB env cache sid yr = (items, cache, 0) := by
  simp [getSectionItemsB, h]

theorem getSectionItemsB_miss (env : EnvB) (cache : CacheB) (sid : String)
    (yr : Option Nat) (h : cacheGetB (sid, yr) cache = none) :
    getSectionItemsB env cache sid yr
      = (env.sectionItems sid yr, ((sid, yr), env.sectionItems sid yr) :: cache, 1) := by
  simp [getSectionItemsB, h]

theorem getSectionItemsB_items (env : EnvB) (cache : CacheB) (sid : String)
    (yr : Option Nat) (hc : cacheConsistentB env cache) :
    (getSectionItemsB env cache sid yr).1 = env.sectionItems sid yr := by
  rcases h : cacheGetB (sid, yr) cache with _ | items
  · simp [getSectionItemsB, h]
  · simp only [getSectionItemsB, h]
    exact hc sid yr items h

theorem getSectionItemsB_consistent (env : EnvB) (cache : CacheB) (sid : String)
    (yr : Option Nat) (hc : cacheConsistentB env cache) :
    cacheConsistentB env (getSectionItemsB env cache sid yr).2.1 := by
  rcases h : cacheGetB (sid, yr) cache with _ | items
  · simp only [getSectionItemsB, h]
    intro sid2 yr2 items2 h2
    by_cases hk : ((sid2, yr2) : String × Option Nat) = (sid, yr)
    · rw [show cacheGetB (sid2, yr2) (((sid, yr), env.sectionItems sid yr) :: cache)
          = some (env.sectionItems sid yr) by simp [cacheGetB, hk]] at h2
      obtain ⟨h1, h2eq⟩ := Prod.ext_iff.mp hk
      dsimp at h1 h2eq
      subst h1; subst h2eq
      exact (Option.some.inj h2).symm
    · rw [show cacheGetB (sid2, yr2) (((sid, yr), env.sectionItems sid yr) :: cache)
          = cacheGetB (sid2, yr2) cache by simp [cacheGetB, hk]] at h2
      exact hc sid2 yr2 items2 h2
  · simp only [getSectionItemsB, h]
    exact hc

theorem getSectionItemsB_monotone (env : EnvB) (cache : CacheB) (sid : String)
    (yr : Option Nat) (k : String × Option Nat) (v : List PlexItemB)
    (h : cacheGetB k cache = some v) :
    cacheGetB k (getSectionItemsB env cache sid yr).2.1 = some v := by
  rcases hh : cacheGetB (sid, yr) cache with _ | items
  · simp only [getSectionItemsB, hh]
    have hk : k ≠ (sid, yr) := by
      rintro rfl
      rw [h] at hh
      cases hh
    simp [cacheGetB, hk, h]
  · simp [getSectionItemsB, hh, h]

theorem getSectionItemsB_caches (env : EnvB) (cache : CacheB) (sid : String)
    (yr : Option Nat) (hc : cacheConsistentB env cache) :
    cacheGetB (sid, yr) (getSectionItemsB env cache sid yr).2.1
      = some (env.sectionItems sid yr) := by
  rcases h : cacheGetB (sid, yr) cache with _ | items
  · simp [getSectionItemsB, h, cacheGetB]
  · simp only [getSectionItemsB, h]
    exact congrArg some (hc sid yr items h)

theorem idScanListB_found (provider id : Option String) (l : List PlexItemB)
    (r : TypeResB) (h : idScanListB provider id l = some r) : r.found = true := by
  induction l with
  | nil => simp [idScanListB] at h
  | cons it rest ih =>
    by_cases hm : isIdMatchB it provider id = true
    · simp only [idScanListB, hm, if_true] at h
      rw [← Option.some.inj h]
    · simp only [idScanListB, hm, Bool.false_eq_true, if_false] at h
      exact ih h

theorem deepScanLoopB_found (env : EnvB) (provider id : Option String)
    (l : List PlexItemB) (r : TypeResB) (h : deepScanLoopB env provider id l = some r) :
    r.found = true := by
  induction l with
  | nil => simp [deepScanLoopB] at h
  | cons it rest ih =>
    by_cases hk : strTruthy it.ratingKey = true
    · simp only [deepScanLoopB, hk, Bool.not_true, Bool.false_eq_true, if_false] at h
      rcases hd : env.itemDetails (it.ratingKey.getD "") with _ | fullItem
      · rw [hd] at h; exact ih h
      · rw [hd] at h
        by_cases hm : isIdMatchB fullItem provider id = true
        · simp only [hm, if_true] at h
          rw [← Option.some.inj h]
        · simp only [hm, Bool.false_eq_true, if_false] at h
          exact ih h
    · simp only [Bool.not_eq_true] at hk
      simp only [deepScanLoopB, hk, Bool.not_false, if_true] at h
      exact ih h

theorem scanItemsB_found (env : EnvB) (provider id : Option String) (plexType : String)
    (items : List PlexItemB) (r : TypeResB)
    (h : scanItemsB env provider id plexType items = some r) : r.found = true := by
  rcases h1 : idScanListB provider id items with _ | r1
  · simp only [scanItemsB, h1] at h
    by_cases hp : plexType = "2"
    · simp only [hp, if_pos rfl] at h
      exact deepScanLoopB_found env provider id _ r (by simpa using h)
    · simp [hp] at h
  · simp only [scanItemsB, h1] at h
    rw [← Option.some.inj h]
    exact idScanListB_found provider id items r1 h1

theorem scanItemsB_none_idscan (env : EnvB) (provider id : Option String)
    (plexType : String) (items : List PlexItemB)
    (h : scanItemsB env provider id plexType items = none) :
    idScanListB provider id items = none := by
  rcases h1 : idScanListB provider id items with _ | r1
  · rfl
  · simp [scanItemsB, h1] at h

theorem idScanListB_none (provider id : Option String) (l : List PlexItemB)
    (h : idScanListB provider id l = none) :
    ∀ item ∈ l, isIdMatchB item provider id = false := by
  induction l with
  | nil => simp
  | cons it rest ih =>
    intro item hmem
    by_cases hm : isIdMatchB it provider id = true
    · simp [idScanListB, hm] at h
    · simp only [idScanListB, hm, Bool.false_eq_true, if_false] at h
      rcases List.mem_cons.mp hmem with rfl | h2
      · simpa using hm
      · exact ih h item h2

theorem m2YearLoopB_consistent (env : EnvB) (provider id : Option String)
    (plexType sid : String) :
    ∀ (ys : List Nat) (cache : CacheB), cacheConsistentB env cache →
      cacheConsistentB env (m2YearLoopB env provider id plexType sid ys cache).2.1 := by
  intro ys
  induction ys with
  | nil => intro cache hc; exact hc
  | cons yv rest ih =>
    intro cache hc
    rcases hg : getSectionItemsB env cache sid (some yv) with ⟨items, cache1, n1⟩
    have hc1 : cacheConsistentB env cache1 := by
      have := getSectionItemsB_consistent env cache sid (some yv) hc
      rwa [hg] at this
    rcases hs : scanItemsB env provider id plexType items with _ | r
    · simp only [m2YearLoopB, hg, hs]
      rcases hrec : m2YearLoopB env provider id plexType sid rest cache1 with ⟨r2, cache2, n2⟩
      have := ih cache1 hc1
      rw [hrec] at this
      simpa using this
    · simp only [m2YearLoopB, hg, hs]
      exact hc1

theorem m2YearLoopB_monotone (env : EnvB) (provider id : Option String)
    (plexType sid : String) :
    ∀ (ys : List Nat) (cache : CacheB) (k : String × Option Nat) (v : List PlexItemB),
      cacheGetB k cache = some v →
      cacheGetB k (m2YearLoopB env provider id plexType sid ys cache).2.1 = some v := by
  intro ys
  induction ys with
  | nil => intro cache k v h; exact h
  | cons yv rest ih =>
    intro cache k v h
    rcases hg : getSectionItemsB env cache sid (some yv) with ⟨items, cache1, n1⟩
    have h1 : cacheGetB k cache1 = some v := by
      have := getSectionItemsB_monotone env cache sid (some yv) k v h
      rwa [hg] at this
    rcases hs : scanItemsB env provider id plexType items with _ | r
    · simp only [m2YearLoopB, hg, hs]
      rcases hrec : m2YearLoopB env provider id plexType sid rest cache1 with ⟨r2, cache2, n2⟩
      have := ih cache1 k v h1
      rw [hrec] at this
      simpa using this
    · simp only [m2YearLoopB, hg, hs]
      exact h1

theorem m2YearLoopB_found (env : EnvB) (provider id : Option String)
    (plexType sid : String) :
    ∀ (ys : List Nat) (cache : CacheB) (r : TypeResB),
      (m2YearLoopB env provider id plexType sid ys cache).1 = some r → r.found = true := by
  intro ys
  induction ys with
  | nil => intro cache r h; simp [m2YearLoopB] at h
  | cons yv rest ih =>
    intro cache r h
    rcases hg : getSectionItemsB env cache sid (some yv) with ⟨items, cache1, n1⟩
    rcases hs : scanItemsB env provider id plexType items with _ | r1
    · simp only [m2YearLoopB, hg, hs] at h
      rcases hrec : m2YearLoopB env provider id plexType sid rest cache1 with ⟨r2, cache2, n2⟩
      rw [hrec] at h
      simp only at h
      exact ih cache1 r (by rw [hrec]; exact h)
    · simp only [m2YearLoopB, hg, hs] at h
      rw [← Option.some.inj h]
      exact scanItemsB_found env provider id plexType items r1 hs

theorem m2YearLoopB_exhaust (env : EnvB) (provider id : Option String)
    (plexType sid : String) :
    ∀ (ys : List Nat) (cache : CacheB), cacheConsistentB env cache →
      (m2YearLoopB env provider id plexType sid ys cache).1 = none →
      ∀ yv ∈ ys, cacheGetB (sid, some yv)
          (m2YearLoopB env provider id plexType sid ys cache).2.1
        = some (env.sectionItems sid (some yv)) := by
  intro ys
  induction ys with
  | nil => simp
  | cons yv0 rest ih =>
    intro cache hc hnone yv hyv
    rcases hg : getSectionItemsB env cache sid (some yv0) with ⟨items, cache1, n1⟩
    have hc1 : cacheConsistentB env cache1 := by
      have := getSectionItemsB_consistent env cache sid (some yv0) hc
      rwa [hg] at this
    have hkey : cacheGetB (sid, some yv0) cache1 = some (env.sectionItems sid (some yv0)) := by
      have := getSectionItemsB_caches env cache sid (some yv0) hc
      rwa [hg] at this
    rcases hs : scanItemsB env provider id plexType items with _ | r
    · rcases hrec : m2YearLoopB env provider id plexType sid rest cache1 with ⟨r2, cache2, n2⟩
      simp only [m2YearLoopB, hg, hs, hrec] at hnone ⊢
      rcases List.mem_cons.mp hyv with rfl | h2
      · have := m2YearLoopB_monotone env provider id plexType sid rest cache1
          (sid, some yv) (env.sectionItems sid (some yv)) hkey
        rw [hrec] at this
        simpa using this
      · have := ih cache1 hc1 (by rw [hrec]; simpa using hnone) yv h2
        rw [hrec] at this
        simpa using this
    · simp [m2YearLoopB, hg, hs] at hnone

theorem m2SectionLoopB_consistent (env : EnvB) (provider id : Option String)
    (plexType : String) (years : List Nat) :
    ∀ (sids : List String) (cache : CacheB), cacheConsistentB env cache →
      cacheConsistentB env (m2SectionLoopB env provider id plexType years sids cache).2.1 := by
  intro sids
  induction sids with
  | nil => intro cache hc; exact hc
  | cons sid rest ih =>
    intro cache hc
    rcases hy : m2YearLoopB env provider id plexType sid years cache with ⟨r1, cache1, n1⟩
    have hc1 : cacheConsistentB env cache1 := by
      have := m2YearLoopB_consistent env provider id plexType sid years cache hc
      rwa [hy] at this
    rcases r1 with _ | r
    · simp only [m2SectionLoopB, hy]
      rcases hrec : m2SectionLoopB env provider id plexType years rest cache1 with ⟨r2, cache2, n2⟩
      have := ih cache1 hc1
      rw [hrec] at this
      simpa using this
    · simp only [m2SectionLoopB, hy]
      exact hc1

theorem m2SectionLoopB_monotone (env : EnvB) (provider id : Option String)
    (plexType : String) (years : List Nat) :
    ∀ (sids : List String) (cache : CacheB) (k : String × Option Nat) (v : List PlexItemB),
      cacheGetB k cache = some v →
      cacheGetB k (m2SectionLoopB env provider id plexType years sids cache).2.1 = some v := by
  intro sids
  induction sids with
  | nil => intro cache k v h; exact h
  | cons sid rest ih =>
    intro cache k v h
    rcases hy : m2YearLoopB env provider id plexType sid years cache with ⟨r1, cache1, n1⟩
    have h1 : cacheGetB k cache1 = some v := by
      have := m2YearLoopB_monotone env provider id plexType sid years cache k v h
      rwa [hy] at this
    rcases r1 with _ | r
    · simp only [m2SectionLoopB, hy]
      rcases hrec : m2SectionLoopB env provider id plexType years rest cache1 with ⟨r2, cache2, n2⟩
      have := ih cache1 k v h1
      rw [hrec] at this
      simpa using this
    · simp only [m2SectionLoopB, hy]
      exact h1

theorem m2SectionLoopB_found (env : EnvB) (provider id : Option String)
    (plexType : String) (years : List Nat) :
    ∀ (sids : List String) (cache : CacheB) (r : TypeResB),
      (m2SectionLoopB env provider id plexType years sids cache).1 = some r →
      r.found = true := by
  intro sids
  induction sids with
  | nil => intro cache r h; simp [m2SectionLoopB] at h
  | cons sid rest ih =>
    intro cache r h
    rcases hy : m2YearLoopB env provider id plexType sid years cache with ⟨r1, cache1, n1⟩
    rcases r1 with _ | r0
    · simp only [m2SectionLoopB, hy] at h
      rcases hrec : m2SectionLoopB env provider id plexType years rest cache1 with ⟨r2, cache2, n2⟩
      rw [hrec] at h
      exact ih cache1 r (by rw [hrec]; exact h)
    · simp only [m2SectionLoopB, hy] at h
      rw [← Option.some.inj h]
      exact m2YearLoopB_found env provider id plexType sid years cache r0 (by rw [hy])

theorem m2SectionLoopB_exhaust (env : EnvB) (provider id : Option String)
    (plexType : String) (years : List Nat) :
    ∀ (sids : List String) (cache : CacheB), cacheConsistentB env cache →
      (m2SectionLoopB env provider id plexType years sids cache).1 = none →
      ∀ sid ∈ sids, ∀ yv ∈ years,
        cacheGetB (sid, some yv)
            (m2SectionLoopB env provider id plexType years sids cache).2.1
          = some (env.sectionItems sid (some yv)) := by
  intro sids
  induction sids with
  | nil => simp
  | cons sid0 rest ih =>
    intro cache hc hnone sid hsid yv hyv
    rcases hy : m2YearLoopB env provider id plexType sid0 years cache with ⟨r1, cache1, n1⟩
    have hc1 : cacheConsistentB env cache1 := by
      have := m2YearLoopB_consistent env provider id plexType sid0 years cache hc
      rwa [hy] at this
    rcases r1 with _ | r0
    · rcases hrec : m2SectionLoopB env provider id plexType years rest cache1 with ⟨r2, cache2, n2⟩
      simp only [m2SectionLoopB, hy, hrec] at hnone ⊢
      rcases List.mem_cons.mp hsid with rfl | h2
      · have hkey := m2YearLoopB_exhaust env provider id plexType sid years cache hc
          (by rw [hy]) yv hyv
        rw [hy] at hkey
        have := m2SectionLoopB_monotone env provider id plexType years rest cache1
          (sid, some yv) (env.sectionItems sid (some yv)) (by simpa using hkey)
        rw [hrec] at this
        simpa using this
      · have := ih cache1 hc1 (by rw [hrec]; simpa using hnone) sid h2 yv hyv
        rw [hrec] at this
        simpa using this
    · simp [m2SectionLoopB, hy] at hnone

theorem m3SectionLoopB_consistent (env : EnvB) (provider id : Option String)
    (plexType : String) :
    ∀ (sids : List String) (cache : CacheB), cacheConsistentB env cache →
      cacheConsistentB env (m3SectionLoopB env provider id plexType sids cache).2.1 := by
  intro sids
  induction sids with
  | nil => intro cache hc; exact hc
  | cons sid rest ih =>
    intro cache hc
    rcases hg : getSectionItemsB env cache sid none with ⟨items, cache1, n1⟩
    have hc1 : cacheConsistentB env cache1 := by
      have := getSectionItemsB_consistent env cache sid none hc
      rwa [hg] at this
    rcases hs : scanItemsB env provider id plexType items with _ | r
    · simp only [m3SectionLoopB, hg, hs]
      rcases hrec : m3SectionLoopB env provider id plexType rest cache1 with ⟨r2, cache2, n2⟩
      have := ih cache1 hc1
      rw [hrec] at this
      simpa using this
    · simp only [m3SectionLoopB, hg, hs]
      exact hc1

theorem m3SectionLoopB_monotone (env : EnvB) (provider id : Option String)
    (plexType : String) :
    ∀ (sids : List String) (cache : CacheB) (k : String × Option Nat) (v : List PlexItemB),
      cacheGetB k cache = some v →
      cacheGetB k (m3SectionLoopB env provider id plexType sids cache).2.1 = some v := by
  intro sids
  induction sids with
  | nil => intro cache k v h; exact h
  | cons sid rest ih =>
    intro cache k v h
    rcases hg : getSectionItemsB env cache sid none with ⟨items, cache1, n1⟩
    have h1 : cacheGetB k cache1 = some v := by
      have := getSectionItemsB_monotone env cache sid none k v h
      rwa [hg] at this
    rcases hs : scanItemsB env provider id plexType items with _ | r
    · simp only [m3SectionLoopB, hg, hs]
      rcases hrec : m3SectionLoopB env provider id plexType rest cache1 with ⟨r2, cache2, n2⟩
      have := ih cache1 k v h1
      rw [hrec] at this
      simpa using this
    · simp only [m3SectionLoopB, hg, hs]
      exact h1

theorem m3SectionLoopB_found (env : EnvB) (provider id : Option String)
    (plexType : String) :
    ∀ (sids : List String) (cache : CacheB) (r : TypeResB),
      (m3SectionLoopB env provider id plexType sids cache).1 = some r →
      r.found = true := by
  intro sids
  induction sids with
  | nil => intro cache r h; simp [m3SectionLoopB] at h
  | cons sid rest ih =>
    intro cache r h
    rcases hg : getSectionItemsB env cache sid none with ⟨items, cache1, n1⟩
    rcases hs : scanItemsB env provider id plexType items with _ | r1
    · simp only [m3SectionLoopB, hg, hs] at h
      rcases hrec : m3SectionLoopB env provider id plexType rest cache1 with ⟨r2, cache2, n2⟩
      rw [hrec] at h
      exact ih cache1 r (by rw [hrec]; exact h)
    · simp only [m3SectionLoopB, hg, hs] at h
      rw [← Option.some.inj h]
      exact scanItemsB_found env provider id plexType items r1 hs

theorem m3SectionLoopB_exhaust (env : EnvB) (provider id : Option String)
    (plexType : String) :
    ∀ (sids : List String) (cache : CacheB), cacheConsistentB env cache →
      (m3SectionLoopB env provider id plexType sids cache).1 = none →
      ∀ sid ∈ sids,
        cacheGetB (sid, none) (m3SectionLoopB env provider id plexType sids cache).2.1
          = some (env.sectionItems sid none) := by
  intro sids
  induction sids with
  | nil => simp
  | cons sid0 rest ih =>
    intro cache hc hnone sid hsid
    rcases hg : getSectionItemsB env cache sid0 none with ⟨items, cache1, n1⟩
    have hc1 : cacheConsistentB env cache1 := by
      have := getSectionItemsB_consistent env cache sid0 none hc
      rwa [hg] at this
    rcases hs : scanItemsB env provider id plexType items with _ | r
    · rcases hrec : m3SectionLoopB env provider id plexType rest cache1 with ⟨r2, cache2, n2⟩
      simp only [m3SectionLoopB, hg, hs, hrec] at hnone ⊢
      rcases List.mem_cons.mp hsid with rfl | h2
      · have hkey : cacheGetB (sid, none) cache1 = some (env.sectionItems sid none) := by
          have := getSectionItemsB_caches env cache sid none hc
          rwa [hg] at this
        have := m3SectionLoopB_monotone env provider id plexType rest cache1
          (sid, none) (env.sectionItems sid none) hkey
        rw [hrec] at this
        simpa using this
      · have := ih cache1 hc1 (by rw [hrec]; simpa using hnone) sid h2
        rw [hrec] at this
        simpa using this
    · simp [m3SectionLoopB, hg, hs] at hnone

theorem m3SectionLoopB_complete (env : EnvB) (provider id : Option String)
    (plexType : String) :
    ∀ (sids : List String) (cache : CacheB), cacheConsistentB env cache →
      ∀ sid ∈ sids,
        (∃ item ∈ env.sectionItems sid none, isIdMatchB item provider id = true) →
        ∃ r, (m3SectionLoopB env provider id plexType sids cache).1 = some r := by
  intro sids
  induction sids with
  | nil => simp
  | cons sid0 rest ih =>
    intro cache hc sid hsid hex
    rcases hg : getSectionItemsB env cache sid0 none with ⟨items, cache1, n1⟩
    have hitems : items = env.sectionItems sid0 none := by
      have := getSectionItemsB_items env cache sid0 none hc
      rw [hg] at this
      exact this
    have hc1 : cacheConsistentB env cache1 := by
      have := getSectionItemsB_consistent env cache sid0 none hc
      rwa [hg] at this
    rcases hs : scanItemsB env provider id plexType items with _ | r
    · rcases List.mem_cons.mp hsid with rfl | h2
      · exfalso
        obtain ⟨item, hmem, hmatch⟩ := hex
        have hnone := scanItemsB_none_idscan env provider id plexType items hs
        have := idScanListB_none provider id items hnone item (hitems ▸ hmem)
        rw [hmatch] at this
        cases this
      · obtain ⟨r2, hr2⟩ := ih cache1 hc1 sid h2 hex
        refine ⟨r2, ?_⟩
        rcases hrec : m3SectionLoopB env provider id plexType rest cache1 with ⟨r3, cache3, n3⟩
        simp only [m3SectionLoopB, hg, hs, hrec]
        rw [hrec] at hr2
        simpa using hr2
    · exact ⟨r, by simp only [m3SectionLoopB, hg, hs]⟩

theorem m1LoopB_found (relevant : List String) (title : String) (year : Option Nat)
    (provider id : Option String) (l : List PlexItemB) (r : TypeResB)
    (h : m1LoopB relevant title year provider id l = some r) : r.found = true := by
  induction l with
  | nil => simp [m1LoopB] at h
  | cons item rest ih =>
    rw [m1LoopB] at h
    split at h
    · exact ih h
    · split at h
      · split at h
        · rw [← Option.some.inj h]
        · exact ih h
      · dsimp only at h
        split at h
        · rw [← Option.some.inj h]
        · exact ih h

theorem m3_stage_complete (env : EnvB) (provider id : Option String)
    (plexType : String) (relevant : List String) (cache2 : CacheB)
    (hc2 : cacheConsistentB env cache2) (sid0 : String) (hsid : sid0 ∈ relevant)
    (hex : ∃ item ∈ env.sectionItems sid0 none, isIdMatchB item provider id = true) :
    ∃ r cache3 n3, m3SectionLoopB env provider id plexType relevant cache2
        = (some r, cache3, n3) ∧ r.found = true := by
  obtain ⟨r0, hr0⟩ :=
    m3SectionLoopB_complete env provider id plexType relevant cache2 hc2 sid0 hsid hex
  rcases hm : m3SectionLoopB env provider id plexType relevant cache2 with ⟨ropt, cache3, n3⟩
  rw [hm] at hr0
  dsimp at hr0
  subst hr0
  exact ⟨r0, cache3, n3, rfl,
    m3SectionLoopB_found env provider id plexType relevant cache2 r0 (by rw [hm])⟩

theorem relevant_mem_of_section (sections : List SectionB) (ty : String) (s : SectionB)
    (hs : s ∈ sections) (hty : s.type = ty) :
    s.id ∈ (sections.filter (fun x => x.type == ty)).map (fun x => x.id) :=
  List.mem_map.mpr ⟨s, List.mem_filter.mpr ⟨hs, by simp [hty]⟩, rfl⟩

theorem checkTypeInPlexB_complete (env : EnvB) (cache : CacheB) (title : String)
    (year : Option Nat) (ty : String) (provider id : Option String)
    (sections : List SectionB) (s : SectionB) (item : PlexItemB)
    (hid : strTruthy id = true) (hc : cacheConsistentB env cache)
    (hs : s ∈ sections) (hty : s.type = ty)
    (hitem : item ∈ env.sectionItems s.id none)
    (hmatch : isIdMatchB item provider id = true) :
    (checkTypeInPlexB env cache title year ty provider id sections).1.found = true := by
  have hsid := relevant_mem_of_section sections ty s hs hty
  simp only [checkTypeInPlexB]
  set pt := (if ty == "show" then "2" else "1" : String) with hpt
  set rel := (sections.filter (fun x => x.type == ty)).map (fun x => x.id) with hrel
  set yw := yearWindowB (year.getD 0) with hyw
  split
  · rename_i r h1
    exact m1LoopB_found rel title year provider id _ r h1
  · rename_i h1
    cases hcond : (strTruthy id && natTruthy year)
    · simp only [hcond, Bool.false_eq_true, if_false]
      obtain ⟨r3, cache3, n3, hm3, hfound⟩ :=
        m3_stage_complete env provider id pt rel cache hc s.id hsid ⟨item, hitem, hmatch⟩
      simp only [hid, if_true, hm3]
      exact hfound
    · simp only [hcond, if_true]
      split
      · rename_i r cache2 n2 heq
        exact m2SectionLoopB_found env provider id pt yw rel cache r (by rw [heq])
      · rename_i cache2 n2 heq
        have hc2 : cacheConsistentB env cache2 := by
          have := m2SectionLoopB_consistent env provider id pt yw rel cache hc
          rw [heq] at this
          exact this
        obtain ⟨r3, cache3, n3, hm3, hfound⟩ :=
          m3_stage_complete env provider id pt rel cache2 hc2 s.id hsid ⟨item, hitem, hmatch⟩
        simp only [hid, if_true, hm3]
        exact hfound

theorem checkTypeInPlexB_exhausts (env : EnvB) (cache : CacheB) (title : String)
    (year : Option Nat) (ty : String) (provider id : Option String)
    (sections : List SectionB)
    (hid : strTruthy id = true) (hc : cacheConsistentB env cache)
    (hnf : (checkTypeInPlexB env cache title year ty provider id sections).1.found = false) :
    ∀ s ∈ sections, s.type = ty →
      cacheGetB (s.id, none)
          (checkTypeInPlexB env cache title year ty provider id sections).2.1
        = some (env.sectionItems s.id none)
      ∧ (natTruthy year = true → ∀ yv ∈ yearWindowB (year.getD 0),
          cacheGetB (s.id, some yv)
              (checkTypeInPlexB env cache title year ty provider id sections).2.1
            = some (env.sectionItems s.id (some yv))) := by
  intro s hs hty
  have hsid := relevant_mem_of_section sections ty s hs hty
  revert hnf
  simp only [checkTypeInPlexB]
  set pt := (if ty == "show" then "2" else "1" : String) with hpt
  set rel := (sections.filter (fun x => x.type == ty)).map (fun x => x.id) with hrel
  set yw := yearWindowB (year.getD 0) with hyw
  split
  · rename_i r h1
    intro hnf
    rw [m1LoopB_found rel title year provider id _ r h1] at hnf
    cases hnf
  · rename_i h1
    cases hcond : (strTruthy id && natTruthy year)
    · simp only [hcond, Bool.false_eq_true, if_false, hid, if_true]
      split
      · rename_i r cache3 n3 heq3
        intro hnf
        rw [m3SectionLoopB_found env provider id pt rel cache r (by rw [heq3])] at hnf
        cases hnf
      · rename_i cache3 n3 heq3
        intro _
        constructor
        · have := m3SectionLoopB_exhaust env provider id pt rel cache hc
            (by rw [heq3]) s.id hsid
          rw [heq3] at this
          exact this
        · intro hyear yv hyv
          rw [hid, hyear] at hcond
          simp at hcond
    · simp only [hcond, if_true]
      split
      · rename_i r cache2 n2 heq
        intro hnf
        rw [m2SectionLoopB_found env provider id pt yw rel cache r (by rw [heq])] at hnf
        cases hnf
      · rename_i cache2 n2 heq
        have hc2 : cacheConsistentB env cache2 := by
          have := m2SectionLoopB_consistent env provider id pt yw rel cache hc
          rw [heq] at this
          exact this
        simp only [hid, if_true]
        split
        · rename_i r cache3 n3 heq3
          intro hnf
          rw [m3SectionLoopB_found env provider id pt rel cache2 r (by rw [heq3])] at hnf
          cases hnf
        · rename_i cache3 n3 heq3
          intro _
          constructor
          · have := m3SectionLoopB_exhaust env provider id pt rel cache2 hc2
              (by rw [heq3]) s.id hsid
            rw [heq3] at this
            exact this
          · intro hyear yv hyv
            have hkey : cacheGetB (s.id, some yv) cache2
                = some (env.sectionItems s.id (some yv)) := by
              have := m2SectionLoopB_exhaust env provider id pt yw rel cache hc
                (by rw [heq]) s.id hsid yv hyv
              rw [heq] at this
              exact this
            have := m3SectionLoopB_monotone env provider id pt rel cache2
              (s.id, some yv) (env.sectionItems s.id (some yv)) hkey
            rw [heq3] at this
            exact this

theorem checkTypeInPlexB_no_id (env : EnvB) (cache : CacheB) (title : String)
    (year : Option Nat) (ty : String) (provider id : Option String)
    (sections : List SectionB) (hid : strTruthy id = false) :
    (checkTypeInPlexB env cache title year ty provider id sections).2.1 = cache
      ∧ (checkTypeInPlexB env cache title year ty provider id sections).2.2 = 0 := by
  simp only [checkTypeInPlexB]
  split
  · exact ⟨rfl, rfl⟩
  · simp [hid]

/-- C1 (code_bug): evaluation of the identity index at the failing input.
An item whose only TVDB tag uses the legacy `thetvdb://` scheme is indexed,
but under the mangled key "the123456": JavaScript
`"thetvdb://123456".replace('tvdb://', '')` removes the first occurrence of
`tvdb://`, which starts inside the word `thetvdb`, leaving `the123456`.
Consequently `lookupByGuid` on the identifier (tvdb, "123456") returns
`none` instead of the recorded item, while the same item tagged with the
modern `tvdb://` scheme is found; so the stated index-correctness property
fails for the legacy TVDB scheme, against the evident intent of the code
branch that handles it. -/
theorem guidIndex_thetvdb_lookup_fails :
    lookupByGuid (buildGuidIndex [thetvdbSection]) (some "tvdb") (some "123456") = none
      ∧ List.lookup "the123456" (buildGuidIndex [thetvdbSection]).tvdb = some thetvdbEntry
      ∧ jsReplaceDel "thetvdb://123456" "tvdb://" = "the123456"
      ∧ lookupByGuid (buildGuidIndex [plainTvdbSection]) (some "tvdb") (some "123456")
          = some thetvdbEntry := by
  refine ⟨by decide, by decide, by decide, by decide⟩

/-- C5 (counterexample): the title predicate of the Plex title-search tier
accepts the pair ("Up", "Up in the Air") through substring containment, so
the claim that the title-based tiers reject this pair is false for that
tier. -/
theorem searchTitle_accepts_short_word_pair :
    searchTitleMatchA "Up" "Up in the Air" = true := by decide

/-- C5 (amended): only the Tautulli tier uses the strict predicate: equal
normalized titles, or one equal to the first word of the other with length
at least 8; it accepts ("Close-Up", "Close up"), rejects ("Up", "Up in the
Air"), and on titles whose normal forms are shorter than 8 characters it
degenerates to exact equality.  The Plex title-search tier instead uses
substring containment, which accepts ("Up", "Up in the Air"). -/
theorem title_predicates_amended :
    tautulliTitleMatchA "Close-Up" "Close up" = true
      ∧ tautulliTitleMatchA "Up" "Up in the Air" = false
      ∧ (∀ a b : String, (normalizeA a).length < 8 → (normalizeA b).length < 8 →
          tautulliTitleMatchA a b = (normalizeA a == normalizeA b))
      ∧ searchTitleMatchA "Up" "Up in the Air" = true := by
  refine ⟨by decide, by decide, ?_, by decide⟩
  intro a b ha hb
  have h1 : ¬ (8 ≤ (normalizeA a).length) := by omega
  have h2 : ¬ (8 ≤ (normalizeA b).length) := by omega
  simp [tautulliTitleMatchA, h1, h2]

/-- C5 (witness): the general conjunct of `title_predicates_amended`
applied at a concrete short-titled input. -/
theorem title_predicates_amended_witness :
    (normalizeA "Heat").length < 8 ∧ (normalizeA "Heart").length < 8 ∧
      tautulliTitleMatchA "Heat" "Heart" = (normalizeA "Heat" == normalizeA "Heart") :=
  ⟨by decide, by decide,
    title_predicates_amended.2.2.1 "Heat" "Heart" (by decide) (by decide)⟩

/-- C6 (counterexample): in the Tautulli tier an absent year makes the year
check false, not true, so the claim that every year-filtering tier treats an
absent year as compatible is false for that tier. -/
theorem tautulli_year_requires_both :
    tautulliYearMatchA none (some 2024) = false := by decide

/-- C6 (amended): the Plex title-search tier's year predicate is true
exactly when either year is absent (zero plays the role of absence under
JavaScript truthiness) or the years differ by at most 1 — in particular
(2024, 2025) passes and (2024, 2026) fails; the Tautulli tier instead
requires both years to be present, rejecting any pair with an absent
year. -/
theorem year_predicates_amended :
    searchYearMatchA (some 2024) (some 2025) = true
      ∧ searchYearMatchA (some 2024) (some 2026) = false
      ∧ tautulliYearMatchA (some 2024) (some 2025) = true
      ∧ tautulliYearMatchA (some 2024) (some 2026) = false
      ∧ (∀ y : Option Nat, searchYearMatchA none y = true ∧ searchYearMatchA y none = true)
      ∧ (∀ a b : Nat, searchYearMatchA (some (a + 1)) (some (b + 1))
            = decide ((((a : Int) + 1) - ((b : Int) + 1)).natAbs ≤ 1))
      ∧ (∀ y : Option Nat, tautulliYearMatchA none y = false
            ∧ tautulliYearMatchA y none = false) := by
  refine ⟨by decide, by decide, by decide, by decide, ?_, ?_, ?_⟩
  · intro y
    cases y with
    | none => exact ⟨by decide, by decide⟩
    | some n => exact ⟨by simp [searchYearMatchA, natTruthy], by simp [searchYearMatchA, natTruthy]⟩
  · intro a b
    simp [searchYearMatchA, natTruthy]
  · intro y
    cases y with
    | none => exact ⟨by decide, by decide⟩
    | some n => exact ⟨by simp [tautulliYearMatchA, natTruthy], by simp [tautulliYearMatchA, natTruthy]⟩

/-- C9: a scan requested while one is active is a no-op: the state is
returned unchanged, the counts are zero, and no cycle outcome (hence no
notification and no persisted write) is produced. -/
theorem run_guard_drops_overlapping_cycle (now : Nat) (plex : FeedItem → CheckResultA)
    (allItems : List FeedItem) (st : BotState) (h : st.isScanning = true) :
    run now plex allItems st = (st, { addedFilms := 0, addedShows := 0 }, none) := by
  simp [run, h]

/-- C9 (witness): the guard theorem at a concrete busy state. -/
theorem run_guard_drops_overlapping_cycle_witness :
    run 0 (fun _ => notFoundA) [] { isScanning := true, entries := [] }
      = ({ isScanning := true, entries := [] },
         { addedFilms := 0, addedShows := 0 }, none) :=
  run_guard_drops_overlapping_cycle 0 (fun _ => notFoundA) [] _ rfl

/-- C3: when the entry carries a truthy external id and the GUID index
resolves it, `checkIfInPlex` returns the indexed item's title and type
directly from Tier 0, issuing zero Tautulli requests and zero title-search
requests. -/
theorem checkIfInPlex_index_tier_short_circuit (env : EnvA) (cfg : ConfigA)
    (idx : GuidIndexA) (title : String) (year : Option Nat) (ty : String)
    (provider id : Option String) (e : IndexEntryA)
    (hl : idx.loaded = true) (hid : strTruthy id = true)
    (hfound : lookupByGuid idx provider id = some e) :
    checkIfInPlexA env cfg idx title year ty provider id =
      ({ found := true, plexTitle := some e.title, detectedType := some e.type },
       { tautulliFetches := 0, searchFetches := 0 }) := by
  simp [checkIfInPlexA, hl, hid, hfound]

/-- C3 (witness): the short-circuit theorem at a concrete index built from
one movie section. -/
theorem checkIfInPlex_index_tier_short_circuit_witness :
    checkIfInPlexA emptyEnvA defaultCfgA (buildGuidIndex [inceptionSection])
        "Inception" (some 2010) "movie" (some "imdb") (some "tt1375666") =
      ({ found := true, plexTitle := some "Inception", detectedType := some "movie" },
       { tautulliFetches := 0, searchFetches := 0 }) := by
  have h := checkIfInPlex_index_tier_short_circuit emptyEnvA defaultCfgA
    (buildGuidIndex [inceptionSection]) "Inception" (some 2010) "movie"
    (some "imdb") (some "tt1375666") inceptionEntry (by decide) (by decide) (by decide)
  exact h

/-- C7 (counterexample): an added entry that is absent from the current
feed is not processed by the scan loop at all, so even though its item is
absent from the library (the availability oracle finds nothing), its status
stays `added` instead of transitioning to `pending`; it is also retained by
cleanup. -/
theorem added_entry_untouched_when_absent_from_feed :
    (runCycleBody 10 (fun _ => notFoundA) [goneEntry] []).entries = [goneEntry]
      ∧ goneEntry.status = "added" := by
  refine ⟨by decide, by decide⟩

/-- C7 (amended): an added entry transitions to `pending` when a current
feed item matches it and the availability check fails (all tiers exhausted),
and an entry with status `added` is never removed by cleanup, even when it
is absent from the current feed; an added entry matched by no feed item is
left untouched. -/
theorem added_status_transitions :
    (∀ (e : TrackedEntry) (it : FeedItem) (res : CheckResultA) (now : Nat),
        res.found = false → e.status = "added" →
        (updateEntry e it res now).1.status = "pending")
      ∧ (∀ (entries : List TrackedEntry) (items : List FeedItem) (e : TrackedEntry),
          e ∈ entries → e.status = "added" → e ∈ cleanupEntries entries items) := by
  constructor
  · intro e it res now hf hs
    exact updateEntry_downgrade e it res now hf hs
  · intro entries items e he hs
    exact cleanupEntries_keeps_added entries items e he hs

/-- C7 (witness): the downgrade and the cleanup-retention conjuncts of
`added_status_transitions` applied at concrete inputs. -/
theorem added_status_transitions_witness :
    (updateEntry goneEntry goneFeedItem notFoundA 10).1.status = "pending"
      ∧ goneEntry ∈ cleanupEntries [goneEntry] [] :=
  ⟨added_status_transitions.1 goneEntry goneFeedItem notFoundA 10 rfl rfl,
   added_status_transitions.2 [goneEntry] [] goneEntry (by decide) rfl⟩

/-- C8: one scan cycle preserves the invariant that no two tracked entries
share an external (provider, id) pair when both entries carry one (provider
and id present and non-empty, the code's truthiness test): an entry is
appended only when no existing entry matches the feed item — by id-pair
equality when both sides carry one, by (title, type) otherwise — and
updates to matched entries never alter provider or id. -/
theorem scan_cycle_preserves_extid_uniqueness (now : Nat)
    (plex : FeedItem → CheckResultA) (entries0 : List TrackedEntry)
    (items : List FeedItem) (h : entries0.Pairwise DistinctExt) :
    ((runCycleBody now plex entries0 items).entries).Pairwise DistinctExt := by
  have h1 : ((scanLoop now plex entries0 items).1).Pairwise DistinctExt :=
    foldl_processItem_pairwise now plex items (entries0, []) h
  simp only [runCycleBody, cleanupEntries]
  exact List.Pairwise.sublist (List.filter_sublist _) h1

/-- C8 (witness): the uniqueness theorem on a cycle that appends one fresh
id-bearing entry next to an existing added entry. -/
theorem scan_cycle_preserves_extid_uniqueness_witness :
    ((runCycleBody 3 (fun _ => notFoundA) [goneEntry] [freshFeedItem]).entries).Pairwise
      DistinctExt :=
  scan_cycle_preserves_extid_uniqueness 3 (fun _ => notFoundA) [goneEntry] [freshFeedItem]
    (List.pairwise_singleton _ _)

/-- C10: the added-content notification is sent exactly when the number of
entries that became available this cycle is at least 1 and strictly below
50; independently of the notification, every entry recorded as newly
available has status `added`, and every entry holding status `added` at the
end of the loop survives cleanup into the persisted state. -/
theorem added_notification_threshold (now : Nat) (plex : FeedItem → CheckResultA)
    (entries0 : List TrackedEntry) (items : List FeedItem) :
    ((runCycleBody now plex entries0 items).notificationSent = true
        ↔ 1 ≤ (runCycleBody now plex entries0 items).addedThisScan.length
          ∧ (runCycleBody now plex entries0 items).addedThisScan.length < 50)
      ∧ (∀ e ∈ (runCycleBody now plex entries0 items).addedThisScan, e.status = "added")
      ∧ (∀ e ∈ (scanLoop now plex entries0 items).1, e.status = "added" →
          e ∈ (runCycleBody now plex entries0 items).entries) := by
  refine ⟨?_, ?_, ?_⟩
  · simp only [runCycleBody]
    rw [Bool.and_eq_true, decide_eq_true_iff, decide_eq_true_iff]
    omega
  · intro e he
    exact foldl_processItem_added_status now plex items (entries0, []) (by simp) e he
  · intro e he hs
    exact cleanupEntries_keeps_added _ items e he hs

/-- C10 (witness): the threshold theorem at a concrete cycle in which one
entry becomes available (notification sent, entry persisted as added). -/
theorem added_notification_threshold_witness :
    ((runCycleBody 3 (fun _ => freshFoundRes) [] [freshFeedItem]).notificationSent = true
        ↔ 1 ≤ (runCycleBody 3 (fun _ => freshFoundRes) [] [freshFeedItem]).addedThisScan.length
          ∧ (runCycleBody 3 (fun _ => freshFoundRes) [] [freshFeedItem]).addedThisScan.length < 50)
      ∧ newEntryFor freshFeedItem freshFoundRes 3
          ∈ (runCycleBody 3 (fun _ => freshFoundRes) [] [freshFeedItem]).entries :=
  ⟨(added_notification_threshold 3 _ [] [freshFeedItem]).1,
   (added_notification_threshold 3 _ [] [freshFeedItem]).2.2 _ (by decide) (by decide)⟩

/-- C2: the exhaustive-scan tier of `checkTypeInPlex`.  (i) Completeness:
with a truthy external id and a consistent scan cache, any item of a
relevant section's full enumeration whose identifiers match the entry's id
is found, whatever the earlier tiers did.  (ii) When the resolver fails, it
has enumerated every relevant section in full and memoized each enumeration
under its section key — and, when a year is known, each year-windowed
(year-1..year+1, restricted to 1901..2099) enumeration under its
section/year key.  (iii)/(iv) The memoized enumeration: a cached key is
served with zero fetches and no cache change; a miss costs exactly one
fetch and stores the result.  (v) Without an external id, the scan tiers do
not run: the cache is untouched and no enumeration is fetched. -/
theorem checkTypeInPlex_exhaustive_scan :
    (∀ (env : EnvB) (cache : CacheB) (title : String) (year : Option Nat) (ty : String)
        (provider id : Option String) (sections : List SectionB) (s : SectionB)
        (item : PlexItemB),
        strTruthy id = true → cacheConsistentB env cache →
        s ∈ sections → s.type = ty → item ∈ env.sectionItems s.id none →
        isIdMatchB item provider id = true →
        (checkTypeInPlexB env cache title year ty provider id sections).1.found = true)
    ∧ (∀ (env : EnvB) (cache : CacheB) (title : String) (year : Option Nat) (ty : String)
        (provider id : Option String) (sections : List SectionB),
        strTruthy id = true → cacheConsistentB env cache →
        (checkTypeInPlexB env cache title year ty provider id sections).1.found = false →
        ∀ s ∈ sections, s.type = ty →
          cacheGetB (s.id, none)
              (checkTypeInPlexB env cache title year ty provider id sections).2.1
            = some (env.sectionItems s.id none)
          ∧ (natTruthy year = true → ∀ yv ∈ yearWindowB (year.getD 0),
              cacheGetB (s.id, some yv)
                  (checkTypeInPlexB env cache title year ty provider id sections).2.1
                = some (env.sectionItems s.id (some yv))))
    ∧ (∀ (env : EnvB) (cache : CacheB) (sid : String) (yr : Option Nat)
        (items : List PlexItemB), cacheGetB (sid, yr) cache = some items →
        getSectionItemsB env cache sid yr = (items, cache, 0))
    ∧ (∀ (env : EnvB) (cache : CacheB) (sid : String) (yr : Option Nat),
        cacheGetB (sid, yr) cache = none →
        getSectionItemsB env cache sid yr
          = (env.sectionItems sid yr, ((sid, yr), env.sectionItems sid yr) :: cache, 1))
    ∧ (∀ (env : EnvB) (cache : CacheB) (title : String) (year : Option Nat) (ty : String)
        (provider id : Option String) (sections : List SectionB),
        strTruthy id = false →
        (checkTypeInPlexB env cache title year ty provider id sections).2.1 = cache
          ∧ (checkTypeInPlexB env cache title year ty provider id sections).2.2 = 0) := by
  refine ⟨?_, ?_, ?_, ?_, ?_⟩
  · intro env cache title year ty provider id sections s item hid hc hs hty hitem hmatch
    exact checkTypeInPlexB_complete env cache title year ty provider id sections s item
      hid hc hs hty hitem hmatch
  · intro env cache title year ty provider id sections hid hc hnf s hs hty
    exact checkTypeInPlexB_exhausts env cache title year ty provider id sections
      hid hc hnf s hs hty
  · intro env cache sid yr items h
    exact getSectionItemsB_hit env cache sid yr items h
  · intro env cache sid yr h
    exact getSectionItemsB_miss env cache sid yr h
  · intro env cache title year ty provider id sections hid
    exact checkTypeInPlexB_no_id env cache title year ty provider id sections hid

/-- C2 (witness): the completeness conjunct at a concrete one-section
environment whose item is reachable only through the M3 full enumeration,
starting from the freshly cleared (empty, trivially consistent) cache. -/
theorem checkTypeInPlex_exhaustive_scan_witness :
    strTruthy (some "tt777") = true
      ∧ (checkTypeInPlexB scanEnvB [] "Obscure" (some 2000) "movie"
          (some "imdb") (some "tt777") [scanSectionB]).1.found = true :=
  ⟨by decide,
   checkTypeInPlex_exhaustive_scan.1 scanEnvB [] "Obscure" (some 2000) "movie"
     (some "imdb") (some "tt777") [scanSectionB] scanSectionB scanMovieItem
     (by decide)
     (fun sid yr items h => by simp [cacheGetB] at h)
     (by decide) rfl (by decide) (by decide)⟩

/-- C4: when the Tautulli tier fails and the full tier sequence for the
declared type finds nothing, `checkIfInPlex` re-runs the whole tier
sequence with the opposite media type (threading the scan cache through),
and a hit in that second pass resolves the entry with `found = true` and
the opposite type as the detected type. -/
theorem checkIfInPlex_cross_type_fallback (env : EnvB) (tc : Bool)
    (excl : List String) (cache : CacheB) (title : String) (year : Option Nat)
    (ty : String) (provider id : Option String)
    (r1 : TypeResB) (c1 : CacheB) (n1 : Nat) (r2 : TypeResB) (c2 : CacheB) (n2 : Nat)
    (htaut : checkViaTautulliB env tc title year provider id
        (getLibrarySectionsB env.rawSections excl) = none)
    (h1 : checkTypeInPlexB env cache title year ty provider id
        (getLibrarySectionsB env.rawSections excl) = (r1, c1, n1))
    (hr1 : r1.found = false)
    (h2 : checkTypeInPlexB env c1 title year (if ty == "movie" then "show" else "movie")
        provider id (getLibrarySectionsB env.rawSections excl) = (r2, c2, n2))
    (hr2 : r2.found = true) :
    checkIfInPlexB env tc excl cache title year ty provider id
      = ({ found := true, plexTitle := r2.plexTitle,
           detectedType := some (if ty == "movie" then "show" else "movie") }, c2, n1 + n2) := by
  simp only [checkIfInPlexB, htaut, h1, hr1, Bool.false_eq_true, if_false, h2, hr2, if_true]

/-- C4 (witness): the cross-type theorem at a concrete environment in which
an entry declared as a movie is found only in the show section, resolving
with detected type `show`. -/
theorem checkIfInPlex_cross_type_fallback_witness :
    checkIfInPlexB crossEnvB false [] [] "Berserk" (some 1997) "movie"
        (some "tvdb") (some "73752")
      = ({ found := true, plexTitle := some "Berserk", detectedType := some "show" },
         [], 0) := by
  have h := checkIfInPlex_cross_type_fallback crossEnvB false [] [] "Berserk"
    (some 1997) "movie" (some "tvdb") (some "73752")
    { found := false, plexTitle := none } [] 0
    { found := true, plexTitle := some "Berserk" } [] 0
    (by decide) (by decide) rfl (by decide) rfl
  simpa using h

end PlexWatchlist
